import Mathlib

set_option maxRecDepth 8192

/-
Verification of the text-extraction-and-regeneration pipeline of the
csc-docs repository: the two maintenance scripts that (a) fetch GitHub
release metadata and regenerate `changelog.mdx`, and (b) fetch a README
and regex-patch numeric statistics into `database/overview.mdx`.

Strings are shallowly embedded as `List Char`; every JS string operation
used by the scripts (trim, toLowerCase, includes, startsWith, split,
substring, slice, regex `String.replace` / `String.match` for the concrete
patterns appearing in the scripts) is given an executable Lean counterpart.
-/

namespace CscDocs

abbrev Chars := List Char

/-- Whitespace characters of `String.prototype.trim` relevant to ASCII content. -/
def isWs (c : Char) : Bool :=
  c = ' ' || c = '\t' || c = '\n' || c = '\r' || c = '\x0b' || c = '\x0c'

/-- JS `s.trim()`: strip whitespace from both ends. -/
def jsTrim (s : Chars) : Chars :=
  ((s.dropWhile isWs).reverse.dropWhile isWs).reverse

/-- JS `s.toLowerCase()` on ASCII content. -/
def lower (s : Chars) : Chars := s.map Char.toLower

/-- JS `s.includes(pat)`: some suffix of `s` has `pat` as a prefix. -/
def containsStr (pat : Chars) : Chars → Bool
  | [] => pat.isEmpty
  | c :: cs => pat.isPrefixOf (c :: cs) || containsStr pat cs

/-- JS `s.startsWith(pat)`. -/
def startsWith (pat s : Chars) : Bool := pat.isPrefixOf s

/- ### Release parser (`parseReleaseBody` in sync-changelog.js) -/
inductive Category
  | feature
  | improvement
  | fix
deriving DecidableEq, Repr

/-- Result record of `parseReleaseBody`. -/
structure Parsed where
  features : List Chars
  improvements : List Chars
  fixes : List Chars
  breaking : Bool
deriving DecidableEq, Repr

/-- Bullet-line test and marker stripping: lines beginning `* ` or `- `
yield `line.substring(2).trim()`. -/
def bulletItem (line : Chars) : Option Chars :=
  if startsWith ("* ".toList) line || startsWith ("- ".toList) line then
    some (jsTrim (line.drop 2))
  else none

/-- Discard rule for contributor/changelog boilerplate bullets
(`item.includes('made their first contribution') || item.includes('@') &&
item.includes('in #') || item.includes('Full Changelog')`). -/
def skipItem (item : Chars) : Bool :=
  containsStr ("made their first contribution".toList) item ||
  (containsStr ("@".toList) item && containsStr ("in #".toList) item) ||
  containsStr ("Full Changelog".toList) item

/-- Keyword classification of a kept bullet, on the lowercased item. -/
def classifyItem (item : Chars) : Category :=
  let l := lower item
  if containsStr ("fix".toList) l || containsStr ("resolve".toList) l ||
      containsStr ("solved".toList) l then
    Category.fix
  else if containsStr ("add".toList) l || containsStr ("new".toList) l ||
      (containsStr ("support".toList) l && !containsStr ("fix".toList) l) then
    Category.feature
  else
    Category.improvement

/-- JS `s.split('\n')`. -/
def splitLines (s : Chars) : List Chars :=
  match s with
  | [] => [[]]
  | c :: cs =>
    if c = '\n' then [] :: splitLines cs
    else
      match splitLines cs with
      | [] => [[c]]
      | h :: t => (c :: h) :: t

/-- Line preprocessing: `body.split('\n').map(line => line.trim()).filter(line => line)`. -/
def bodyLines (body : Chars) : List Chars :=
  ((splitLines body).map jsTrim).filter (fun l => !l.isEmpty)

/-- Whole-body breaking-change scan
(`body.toLowerCase().includes('breaking change') || body.toLowerCase().includes('!!breaking')`). -/
def breakingFlag (body : Chars) : Bool :=
  containsStr ("breaking change".toList) (lower body) ||
  containsStr ("!!breaking".toList) (lower body)

/-- One iteration of the classification loop of `parseReleaseBody`. -/
def processLine (acc : Parsed) (line : Chars) : Parsed :=
  match bulletItem line with
  | none => acc
  | some item =>
    if skipItem item then acc
    else
      match classifyItem item with
      | Category.fix => { acc with fixes := acc.fixes ++ [item] }
      | Category.feature => { acc with features := acc.features ++ [item] }
      | Category.improvement => { acc with improvements := acc.improvements ++ [item] }

/-- The `parseReleaseBody(body, tagName)` function: absent body yields the
empty classification; otherwise the breaking flag is computed from the whole
body and each trimmed non-empty line is processed in order. -/
def parseReleaseBody : Option Chars → Parsed
  | none => ⟨[], [], [], false⟩
  | some body => (bodyLines body).foldl processLine ⟨[], [], [], breakingFlag body⟩

/-- Bullet items of a body, in order (before the discard/classification rules). -/
def itemsOf (body : Chars) : List Chars := (bodyLines body).filterMap bulletItem

/-- Items the parser keeps for category `c`. -/
def keptFor (c : Category) (body : Chars) : List Chars :=
  (itemsOf body).filter (fun i => !skipItem i && classifyItem i == c)

/-- Precedence rule (1) of the claim: the bullet contains, case-insensitively,
"fix", "resolve", or "solved". -/
def fixRule (i : Chars) : Bool :=
  containsStr ("fix".toList) (lower i) || containsStr ("resolve".toList) (lower i) ||
    containsStr ("solved".toList) (lower i)

/-- Precedence rule (2) of the claim: the bullet contains, case-insensitively,
"add" or "new", or contains "support" without also containing "fix". -/
def featureRule (i : Chars) : Bool :=
  containsStr ("add".toList) (lower i) || containsStr ("new".toList) (lower i) ||
    (containsStr ("support".toList) (lower i) && !containsStr ("fix".toList) (lower i))

/-- Spec example body: one feature, one fix, one discarded contributor line. -/
def exBody : Chars :=
  "* Added new endpoint\n* Fixed null pointer bug\n* @bob made their first contribution in #42".toList

/- ### Changelog renderer (`formatDate`, `generateUpdateComponent`,
`generateChangelogContent` in sync-changelog.js) -/
/-- Civil date (year, month, day) from a count of days since 1970-01-01,
modelling `new Date(ms)` read in UTC. -/
def civilFromDays (z0 : Nat) : Nat × Nat × Nat :=
  let z := z0 + 719468
  let era := z / 146097
  let doe := z % 146097
  let yoe := (doe - doe / 1460 + doe / 36524 - doe / 146097) / 365
  let y := yoe + era * 400
  let doy := doe - (365 * yoe + yoe / 4 - yoe / 100)
  let mp := (5 * doy + 2) / 153
  let d := doy - (153 * mp + 2) / 5 + 1
  let m := if mp < 10 then mp + 3 else mp - 9
  (if m ≤ 2 then y + 1 else y, m, d)

/-- Decimal digits, one recursion step per digit (fuel bounded by `n + 1`). -/
def natCharsF : Nat → Nat → Chars
  | 0, _ => []
  | Nat.succ f, n =>
    if n < 10 then [Char.ofNat (48 + n)]
    else natCharsF f (n / 10) ++ [Char.ofNat (48 + n % 10)]

/-- Decimal rendering of a natural number (JS template interpolation). -/
def natChars (n : Nat) : Chars := natCharsF (n + 1) n

/-- English month name used by `toLocaleDateString('en-US', { month: 'long' })`. -/
def monthName (m : Nat) : Chars :=
  (["January", "February", "March", "April", "May", "June", "July",
    "August", "September", "October", "November", "December"].getD (m - 1) "").toList

/-- The `formatDate` function: `new Date(ms)` rendered as
`{ year: 'numeric', month: 'long', day: 'numeric' }`, e.g. "September 21, 2025".
Timestamps are modelled as milliseconds since the Unix epoch, read in UTC. -/
def formatDate (ms : Nat) : Chars :=
  let c := civilFromDays (ms / 86400000)
  monthName c.2.1 ++ (" ".toList ++ natChars c.2.2 ++ ", ".toList ++ natChars c.1)

/-- Calendar year of a publish timestamp
(`new Date(release.published_at).getFullYear()`). -/
def yearOf (ms : Nat) : Nat := (civilFromDays (ms / 86400000)).1

/-- GitHub release object as consumed by the changelog script. -/
structure Release where
  tag_name : Chars
  published_at : Nat
  body : Option Chars
  prerelease : Bool
deriving DecidableEq, Repr

/-- Breaking-change description extraction:
`release.body?.match(/BREAKING CHANGE[:\s]*(.*?)$/im)`.  The scan finds the
leftmost case-insensitive occurrence of the literal "BREAKING CHANGE",
greedily skips the following run of colons and whitespace (which may cross
line breaks), and captures up to the end of that line. -/
def findCi (pat : Chars) : Chars → Option Chars
  | [] => if pat.isEmpty then some [] else none
  | c :: cs =>
    if (lower pat).isPrefixOf (lower (c :: cs)) then some ((c :: cs).drop pat.length)
    else findCi pat cs

/-- Separator class `[:\s]` of the breaking-change regex. -/
def isSep (c : Char) : Bool := c = ':' || isWs c

/-- Line-terminator test: characters ending the lazy `(.*?)$` capture
under the `m` flag. -/
def isLineTerm (c : Char) : Bool := c = '\n' || c = '\r'

/-- Capture group of `/BREAKING CHANGE[:\s]*(.*?)$/im` applied to a body. -/
def breakingCapture (body : Chars) : Option Chars :=
  (findCi ("BREAKING CHANGE".toList) body).map
    (fun rest => (rest.dropWhile isSep).takeWhile (fun c => !isLineTerm c))

/-- The rendered breaking-change description:
`breakingMatch ? breakingMatch[1].trim() : 'This release contains breaking changes.'`. -/
def breakingDescOf (body : Option Chars) : Chars :=
  match body with
  | none => "This release contains breaking changes.".toList
  | some b =>
    match breakingCapture b with
    | none => "This release contains breaking changes.".toList
    | some cap => jsTrim cap

/-- One category section of `generateUpdateComponent`: a heading followed by
the first 8 items, omitted entirely when the category is empty. -/
def renderSection (heading : Chars) (items : List Chars) : Chars :=
  if items.length > 0 then
    "## ".toList ++ heading ++ "\n".toList ++
      ((items.take 8).map (fun i => "- ".toList ++ i ++ "\n".toList)).flatten ++
      "\n".toList
  else []

/-- The `generateUpdateComponent(release)` function. -/
def generateUpdateComponent (r : Release) : Chars :=
  let p := parseReleaseBody r.body
  let date := formatDate r.published_at
  "<Update label=\"".toList ++ r.tag_name ++
    ("\" description=\"Released ".toList ++ date ++ "\">\n".toList) ++
  (if p.breaking then
    "<Warning>\n".toList ++ breakingDescOf r.body ++ "\n</Warning>\n\n".toList
   else []) ++
  renderSection ("New Features".toList) p.features ++
  renderSection ("Improvements".toList) p.improvements ++
  renderSection ("Bug Fixes".toList) p.fixes ++
  "</Update>\n".toList

/-- Inverse of `splitLines`: rejoin lines with a newline separator. -/
def joinLines : List Chars → Chars
  | [] => []
  | [l] => l
  | l :: ls => l ++ '\n' :: joinLines ls

/-- Tail part of a rejoined line list, starting at its separating newline. -/
def joinTail : List Chars → Chars
  | [] => []
  | l :: ls => '\n' :: joinLines (l :: ls)

/-- Line-by-line leftmost search: first line containing a case-insensitive
occurrence of `pat`, together with the in-line remainder and the later lines. -/
def lineFind (pat : Chars) : List Chars → Option (Chars × List Chars)
  | [] => none
  | l :: ls =>
    match findCi pat l with
    | some t => some (t, ls)
    | none => lineFind pat ls

/-- Description extraction as the claim words it: the remainder, after the
"BREAKING CHANGE:" marker, of the first line matching that marker, trimmed;
the fixed generic sentence when no line matches. -/
def specBreakingDescription (body : Chars) : Chars :=
  match (splitLines body).findSome?
      (fun l => (findCi ("BREAKING CHANGE:".toList) l).map jsTrim) with
  | some d => d
  | none => "This release contains breaking changes.".toList

/-- Counterexample body: the "BREAKING CHANGE:" marker ends its line, so the
regex's `[:\s]*` run crosses the newline and the capture comes from the NEXT
line, not from the marker's own line as the claim states. -/
def cex7Body : Chars := "BREAKING CHANGE:\nall apis renamed".toList

/-- Witness body for the amended breaking-change claim: a marker with a
single colon and its capture on the marker's own line. -/
def w7Body : Chars := "Note\nBREAKING CHANGE: drop v1 api\nmore".toList

/-- Remainder after the marker literal inside `w7Body`. -/
def w7Rest : Chars := ": drop v1 api\nmore".toList

/-- Body consisting of 12 feature bullets. -/
def twelveBody : Chars :=
  ("* Add a1\n* Add a2\n* Add a3\n* Add a4\n* Add a5\n* Add a6\n" ++
   "* Add a7\n* Add a8\n* Add a9\n* Add b1\n* Add b2\n* Add b3").toList

/-- Frontmatter of the regenerated `changelog.mdx`. -/
def changelogFrontMatter : Chars :=
  ("---\ntitle: \"Changelog\"\ndescription: \"Track the latest updates, improvements, " ++
   "and changes to the Country State City ecosystem including API, database, and tools.\"\n" ++
   "icon: \"clock\"\n---\n\n# Changelog\n\n" ++
   "Stay up-to-date with the latest improvements, new features, and changes across " ++
   "the Country State City ecosystem.\n\n<Info>\n" ++
   "This changelog is automatically synced from " ++
   "[GitHub releases](https://github.com/dr5hn/countries-states-cities-database/releases). " ++
   "For detailed technical information, visit the repository.\n</Info>\n\n").toList

/-- Static footer of the regenerated `changelog.mdx`. -/
def changelogFooter : Chars :=
  ("## Release Information\n\n<Tip>\n" ++
   "Our releases follow semantic versioning (SemVer) with the following format:\n" ++
   "- **Major.Minor.Patch** (e.g., 3.0.0)\n" ++
   "- **Major**: Breaking changes requiring migration\n" ++
   "- **Minor**: New features with backward compatibility  \n" ++
   "- **Patch**: Bug fixes and minor improvements\n</Tip>\n\n" ++
   "## Stay Updated\n\n<CardGroup cols={2}>\n" ++
   "<Card title=\"GitHub Releases\" icon=\"github\" " ++
   "href=\"https://github.com/dr5hn/countries-states-cities-database/releases\">\n" ++
   "  Get notified about new releases and download assets directly from GitHub.\n</Card>\n\n" ++
   "<Card title=\"API Portal\" icon=\"globe\" href=\"https://countrystatecity.in\">\n" ++
   "  Access the API and get your developer key for integration.\n</Card>\n</CardGroup>\n\n" ++
   "## Contributing to Updates\n\n" ++
   "We welcome community contributions to keep our geographical data accurate and up-to-date.\n\n" ++
   "<Steps>\n<Step title=\"Identify Changes\">\n" ++
   "  Notice outdated or incorrect geographical information? " ++
   "Check our data against official government sources.\n</Step>\n\n" ++
   "<Step title=\"Use Update Tool\">\n" ++
   "  Submit changes through our [Update Tool](/tools/update-tool) " ++
   "with proper documentation and sources.\n</Step>\n\n" ++
   "<Step title=\"Review Process\">\n" ++
   "  Our team reviews all submissions for accuracy and integrates approved changes " ++
   "into the next release.\n</Step>\n</Steps>\n\n<Info>\n" ++
   "All major data updates are tested extensively before release to ensure accuracy " ++
   "and maintain API compatibility.\n</Info>\n").toList

/-- Descending order on year keys, as induced by the comparator `(a, b) => b - a`. -/
def yearDesc (a b : Nat) : Prop := b ≤ a

instance yearDescDecidable : DecidableRel yearDesc := fun a b => Nat.decLe b a

instance yearDescTotal : IsTotal Nat yearDesc := ⟨fun a b => Nat.le_total b a⟩

instance yearDescTrans : IsTrans Nat yearDesc := ⟨fun _ _ _ hab hbc => le_trans hbc hab⟩

/-- Descending order on releases, as induced by the comparator
`(a, b) => new Date(b.published_at) - new Date(a.published_at)`. -/
def releaseDesc (a b : Release) : Prop := b.published_at ≤ a.published_at

instance releaseDescDecidable : DecidableRel releaseDesc :=
  fun a b => Nat.decLe b.published_at a.published_at

instance releaseDescTotal : IsTotal Release releaseDesc :=
  ⟨fun a b => Nat.le_total b.published_at a.published_at⟩

instance releaseDescTrans : IsTrans Release releaseDesc :=
  ⟨fun _ _ _ hab hbc => le_trans hbc hab⟩

/-- Distinct publish years of the releases, numerically descending
(`Object.keys(releasesByYear).sort((a, b) => b - a)`; the JS sort is stable,
so any stable sorting algorithm models it — insertion sort here). -/
def yearKeys (rs : List Release) : List Nat :=
  List.insertionSort yearDesc (rs.map (fun r => yearOf r.published_at)).dedup

/-- Releases of one year: the per-year bucket keeps the original listing order
and is then stable-sorted by publish timestamp descending
(`sort((a, b) => new Date(b.published_at) - new Date(a.published_at))`). -/
def yearReleases (rs : List Release) (y : Nat) : List Release :=
  List.insertionSort releaseDesc (rs.filter (fun r => yearOf r.published_at == y))

/-- Year-grouped releases, newest year first. -/
def yearGroups (rs : List Release) : List (Nat × List Release) :=
  (yearKeys rs).map (fun y => (y, yearReleases rs y))

/-- The `generateChangelogContent(releases)` function: frontmatter, one block
per year (heading followed by the year's update components), static footer. -/
def generateChangelogContent (rs : List Release) : Chars :=
  changelogFrontMatter ++
  ((yearGroups rs).map (fun g =>
    "## ".toList ++ natChars g.1 ++ "\n\n".toList ++
      (g.2.map (fun r => generateUpdateComponent r ++ "\n".toList)).flatten)).flatten ++
  changelogFooter

/-- Ten example releases spread over 2023 and 2024, listed out of order. -/
def exReleases : List Release :=
  [⟨"v10".toList, 1704067200000 + 5 * 86400000, none, false⟩,
   ⟨"v5".toList, 1672531200000 + 100 * 86400000, none, false⟩,
   ⟨"v9".toList, 1704067200000 + 320 * 86400000, none, false⟩,
   ⟨"v2".toList, 1672531200000 + 10 * 86400000, none, false⟩,
   ⟨"v8".toList, 1704067200000 + 150 * 86400000, none, false⟩,
   ⟨"v4".toList, 1672531200000 + 50 * 86400000, none, false⟩,
   ⟨"v7".toList, 1704067200000 + 60 * 86400000, none, false⟩,
   ⟨"v3".toList, 1672531200000 + 300 * 86400000, none, false⟩,
   ⟨"v6".toList, 1704067200000 + 250 * 86400000, none, false⟩,
   ⟨"v1".toList, 1672531200000 + 200 * 86400000, none, false⟩]

/- ### Statistics extractor (`parseStatistics` in update-database-stats.js) -/
/-- The five optional statistics extracted from the README. -/
structure StatRecord where
  regions : Option Nat
  subregions : Option Nat
  countries : Option Nat
  states : Option Nat
  cities : Option Nat
deriving DecidableEq, Repr

/-- Case-insensitive literal, consuming a prefix. -/
def stripCi (lit : Chars) (s : Chars) : Option Chars :=
  if (lower lit).isPrefixOf (lower s) then some (s.drop lit.length) else none

/-- Regex `\s+`: at least one whitespace character, taken greedily. -/
def ws1 : Chars → Option Chars
  | [] => none
  | c :: cs => if isWs c then some (cs.dropWhile isWs) else none

/-- Regex `s?` (case-insensitive): one optional letter s, taken greedily. -/
def optS (s : Chars) : Chars :=
  match s with
  | c :: cs => if c = 's' || c = 'S' then cs else s
  | [] => []

/-- Regex `\d+`: a non-empty greedy digit run, returning (run, rest). -/
def digits1 : Chars → Option (Chars × Chars)
  | [] => none
  | c :: cs =>
    if c.isDigit then some ((c :: cs).takeWhile Char.isDigit, (c :: cs).dropWhile Char.isDigit)
    else none

/-- Regex `(?:,\d+)*`: greedy comma-digit groups; the fuel bounds recursion
by the input length and is always sufficient. -/
def commaGroupsF : Nat → Chars → Chars × Chars
  | 0, s => ([], s)
  | Nat.succ fuel, s =>
    match s with
    | [] => ([], [])
    | c :: rest =>
      if c = ',' then
        match digits1 rest with
        | some p =>
          let q := commaGroupsF fuel p.2
          (',' :: (p.1 ++ q.1), q.2)
        | none => ([], c :: rest)
      else ([], c :: rest)

/-- Regex `\d+(?:,\d+)*` (greedy), returning (matched numeral, rest). -/
def numeralParse (s : Chars) : Option (Chars × Chars) :=
  match digits1 s with
  | none => none
  | some (d, r) =>
    let p := commaGroupsF r.length r
    some (d ++ p.1, p.2)

/-- Label part `Regions?` of pattern 1. -/
def labelRegions (s : Chars) : Option Chars := (stripCi ("Region".toList) s).map optS

/-- Label part `Sub\s+Regions?` of pattern 2. -/
def labelSubRegions (s : Chars) : Option Chars :=
  match stripCi ("Sub".toList) s with
  | none => none
  | some r1 =>
    match ws1 r1 with
    | none => none
    | some r2 => (stripCi ("Region".toList) r2).map optS

/-- Label part `Countries?` of pattern 3. -/
def labelCountries (s : Chars) : Option Chars := (stripCi ("Countrie".toList) s).map optS

/-- Optional group `(?:\/Regions?\/Municipalities?)?` of pattern 4: taken when
it matches in full, otherwise skipped. -/
def statesGroup (s : Chars) : Chars :=
  match s with
  | '/' :: r1 =>
    match stripCi ("Region".toList) r1 with
    | some r2 =>
      match optS r2 with
      | '/' :: r4 =>
        match stripCi ("Municipalitie".toList) ('/' :: r4).tail with
        | some r5 => optS r5
        | none => s
      | _ => s
    | none => s
  | _ => s

/-- Label part `States?(?:\/Regions?\/Municipalities?)?` of pattern 4. -/
def labelStates (s : Chars) : Option Chars :=
  (stripCi ("State".toList) s).map (fun r => statesGroup (optS r))

/-- Optional group `(?:\/Towns?\/Districts?)?` of pattern 5. -/
def citiesGroup (s : Chars) : Chars :=
  match s with
  | '/' :: r1 =>
    match stripCi ("Town".toList) r1 with
    | some r2 =>
      match optS r2 with
      | '/' :: r4 =>
        match stripCi ("District".toList) ('/' :: r4).tail with
        | some r5 => optS r5
        | none => s
      | _ => s
    | none => s
  | _ => s

/-- Label part `Cities?(?:\/Towns?\/Districts?)?` of pattern 5. -/
def labelCities (s : Chars) : Option Chars :=
  (stripCi ("Citie".toList) s).map (fun r => citiesGroup (optS r))

/-- One attempt of a statistic pattern
`Total\s+<label>\s*:\s*(\d+(?:,\d+)*)` at the start of `s` (case-insensitive),
returning the captured numeral. -/
def statMatchAt (label : Chars → Option Chars) (s : Chars) : Option Chars :=
  match stripCi ("Total".toList) s with
  | none => none
  | some r1 =>
    match ws1 r1 with
    | none => none
    | some r2 =>
      match label r2 with
      | none => none
      | some r3 =>
        match r3.dropWhile isWs with
        | ':' :: r5 => (numeralParse (r5.dropWhile isWs)).map Prod.fst
        | _ => none

/-- Leftmost search of a statistic pattern (`readmeContent.match(pattern)`),
returning the first capture. -/
def findStat (label : Chars → Option Chars) : Chars → Option Chars
  | [] => none
  | c :: cs =>
    match statMatchAt label (c :: cs) with
    | some cap => some cap
    | none => findStat label cs

/-- Decimal digits to a number. -/
def digitsToNat (s : Chars) : Nat := s.foldl (fun n c => n * 10 + (c.toNat - 48)) 0

/-- `parseInt(match[1].replace(/,/g, ''))`: strip thousands separators, parse. -/
def parseNum (cap : Chars) : Nat := digitsToNat (cap.filter (fun c => !(c == ',')))

/-- The `parseStatistics(readmeContent)` function: five independent
case-insensitive searches, each `null` when its pattern does not match. -/
def parseStatistics (readme : Chars) : StatRecord :=
  { regions := (findStat labelRegions readme).map parseNum,
    subregions := (findStat labelSubRegions readme).map parseNum,
    countries := (findStat labelCountries readme).map parseNum,
    states := (findStat labelStates readme).map parseNum,
    cities := (findStat labelCities readme).map parseNum }

/-- Prefix of the example README, before the states line. -/
def exReadmePre : Chars :=
  ("# DB\nInsights:\nTotal Regions : 6 <br>\nTotal Sub Regions : 22 <br>\n" ++
   "Total Countries : 250 <br>\n").toList

/-- Suffix of the example README, starting at the states line. -/
def exReadmeSuf : Chars :=
  ("Total States/Regions/Municipalities : 5,038 <br>\n" ++
   "Total Cities/Towns/Districts : 151,024 <br>\n").toList

/-- Example README with all five statistics lines. -/
def exReadme : Chars := exReadmePre ++ exReadmeSuf

/- ### Overview rewriter (`updateOverviewFile` in update-database-stats.js) -/
/-- A replace pattern's attempt at the head of a string: (matched, rest). -/
abbrev Matcher := Chars → Option (Chars × Chars)

/-- JS `String.replace` with a non-global regex: replace the leftmost match,
return the input unchanged when there is none. -/
def replFirst (m : Matcher) (repl : Chars) : Chars → Chars
  | [] =>
    match m [] with
    | some p => repl ++ p.2
    | none => []
  | c :: cs =>
    match m (c :: cs) with
    | some p => repl ++ p.2
    | none => c :: replFirst m repl cs

/-- Case-sensitive literal at the head of a string. -/
def stripLit (lit s : Chars) : Option Chars :=
  if lit.isPrefixOf s then some (s.drop lit.length) else none

/-- Leading literal of a statistic anchor
`<div className="text-2xl font-bold text-<color>-600">`. -/
def divPre (color : Chars) : Chars :=
  "<div className=\"text-2xl font-bold text-".toList ++ color ++ "-600\">".toList

/-- Closing literal of a statistic anchor. -/
def divSuf : Chars := "</div>".toList

/-- Matcher of `/<div className="text-2xl font-bold text-<color>-600">\d+(?:,\d+)*<\/div>/`. -/
def divMatcher (color : Chars) : Matcher := fun s =>
  match stripLit (divPre color) s with
  | none => none
  | some r1 =>
    match numeralParse r1 with
    | none => none
    | some p =>
      match stripLit divSuf p.2 with
      | some r3 => some (divPre color ++ p.1 ++ divSuf, r3)
      | none => none

/-- Leading literal of the date anchor. -/
def datePre : Chars := "Last Updated: ".toList

/-- Matcher of `/Last Updated: [^<]+/`. -/
def dateMatcher : Matcher := fun s =>
  match stripLit datePre s with
  | none => none
  | some r1 =>
    let run := r1.takeWhile (fun c => !(c == '<'))
    if run.isEmpty then none
    else some (datePre ++ run, r1.dropWhile (fun c => !(c == '<')))

/-- Literal pieces of the frontmatter description pattern. -/
def descPre : Chars := "description: \"Complete geographical database with ".toList

/-- Literal between the countries and states numbers. -/
def descMid1 : Chars := "+ countries, ".toList

/-- Literal between the states and cities numbers. -/
def descMid2 : Chars := "+ states, and ".toList

/-- Closing literal of the description pattern. -/
def descMid3 : Chars := "+ cities in multiple formats\"".toList

/-- Matcher of the frontmatter description pattern
`/description: "Complete geographical database with \d+\+ countries, \d+\+ states, and \d+\+ cities in multiple formats"/`. -/
def descMatcher : Matcher := fun s =>
  match stripLit descPre s with
  | none => none
  | some r1 =>
    match digits1 r1 with
    | none => none
    | some p1 =>
      match stripLit descMid1 p1.2 with
      | none => none
      | some r3 =>
        match digits1 r3 with
        | none => none
        | some p2 =>
          match stripLit descMid2 p2.2 with
          | none => none
          | some r5 =>
            match digits1 r5 with
            | none => none
            | some p3 =>
              match stripLit descMid3 p3.2 with
              | none => none
              | some r7 =>
                some (descPre ++ p1.1 ++ descMid1 ++ p2.1 ++ descMid2 ++
                  p3.1 ++ descMid3, r7)

/-- Group digits in threes from the right (fuel bounded by the length);
operates on the reversed digit string. -/
def group3F : Nat → Chars → Chars
  | 0, ds => ds
  | Nat.succ f, ds =>
    if ds.length ≤ 3 then ds else ds.take 3 ++ ',' :: group3F f (ds.drop 3)

/-- `formatNumber`: `num.toLocaleString()`, comma thousands separators. -/
def formatNumber (n : Nat) : Chars :=
  (group3F (natChars n).length (natChars n).reverse).reverse

/-- One conditional statistic replacement of `updateOverviewFile`. -/
def applyStat (field : Option Nat) (color : Chars) (doc : Chars) : Chars :=
  match field with
  | none => doc
  | some n => replFirst (divMatcher color) (divPre color ++ formatNumber n ++ divSuf) doc

/-- The `updated` flag: set whenever any statistic field is present,
regardless of whether its anchor pattern matched. -/
def anyPresent (st : StatRecord) : Bool :=
  st.regions.isSome || st.subregions.isSome || st.countries.isSome ||
    st.states.isSome || st.cities.isSome

/-- Mid literal of the description replacement (states part). -/
def descReplMid2 : Chars := "k+ states, and ".toList

/-- Closing literal of the description replacement (cities part). -/
def descReplMid3 : Chars := "k+ cities in multiple formats\"".toList

/-- Replacement text of the frontmatter description
(countries rounded down to 50s, states to 500s, cities to 1000s, the last two
rendered in thousands with a `k` suffix). -/
def descRepl (c s ci : Nat) : Chars :=
  descPre ++ (natChars (c / 50 * 50) ++ (descMid1 ++ (natChars (s / 500 * 500 / 1000) ++
    (descReplMid2 ++ (natChars (ci / 1000 * 1000 / 1000) ++ descReplMid3)))))

/-- `getCurrentDate()`: ordinal day, full month name, year. -/
def getCurrentDate (day : Nat) (month : Chars) (year : Nat) : Chars :=
  natChars day ++
    (["th".toList, "st".toList, "nd".toList, "rd".toList].getD
      (if day % 10 > 3 || day / 10 == 1 then 0 else day % 10) []) ++
    " ".toList ++ month ++ " ".toList ++ natChars year

/-- The text transformation of `updateOverviewFile(stats)`: five conditional
statistic replacements (each setting `updated`), then — when any field was
present — the date replacement and, when countries, states and cities are all
present, the frontmatter description replacement. -/
def updateOverview (st : StatRecord) (today : Chars) (doc : Chars) : Chars :=
  let c1 := applyStat st.regions ("blue".toList) doc
  let c2 := applyStat st.subregions ("green".toList) c1
  let c3 := applyStat st.countries ("purple".toList) c2
  let c4 := applyStat st.states ("orange".toList) c3
  let c5 := applyStat st.cities ("red".toList) c4
  if anyPresent st then
    let c6 := replFirst dateMatcher (datePre ++ today) c5
    match st.countries, st.states, st.cities with
    | some c, some s, some ci => replFirst descMatcher (descRepl c s ci) c6
    | _, _, _ => c6
  else c5

/-- The same pipeline with the description step removed (comparison
definition for the description-guard claim). -/
def updateOverviewNoDesc (st : StatRecord) (today : Chars) (doc : Chars) : Chars :=
  let c1 := applyStat st.regions ("blue".toList) doc
  let c2 := applyStat st.subregions ("green".toList) c1
  let c3 := applyStat st.countries ("purple".toList) c2
  let c4 := applyStat st.states ("orange".toList) c3
  let c5 := applyStat st.cities ("red".toList) c4
  if anyPresent st then replFirst dateMatcher (datePre ++ today) c5 else c5

/- ### File-system effects of the two drivers -/
/-- File paths touched by the scripts. -/
inductive ScriptPath
  | changelog
  | changelogBackup
  | overview
deriving DecidableEq, Repr

/-- File-system operations performed by a run, in order. -/
inductive FsOp
  | copy (src dst : ScriptPath)
  | write (dst : ScriptPath) (content : Chars)
deriving DecidableEq, Repr

/-- Backup test on an operation. -/
def FsOp.isBackupCopy : FsOp → Bool
  | FsOp.copy _ _ => true
  | _ => false

/-- File operations of `syncChangelog()`: a backup copy when the changelog
already exists, then the whole-file write. -/
def syncChangelogOps (changelogExists : Bool) (releases : List Release) : List FsOp :=
  (if changelogExists then [FsOp.copy ScriptPath.changelog ScriptPath.changelogBackup]
   else []) ++
  [FsOp.write ScriptPath.changelog (generateChangelogContent releases)]

/-- File operations of `updateOverviewFile(stats)`: a single in-place write
when `updated`, nothing otherwise — no backup is ever taken. -/
def updateOverviewOps (st : StatRecord) (today doc : Chars) : List FsOp :=
  if anyPresent st then [FsOp.write ScriptPath.overview (updateOverview st today doc)]
  else []

/-- Document in which the `Last Updated` anchor's greedy `[^<]+` run reaches
the frontmatter-style description line (no `<` intervenes). -/
def cex10Doc : Chars :=
  ("Last Updated: x\ndescription: \"Complete geographical database with " ++
   "250+ countries, 5038+ states, and 151024+ cities in multiple formats\"").toList

/-- A StatRecord with a field present but states (one of the three) unset. -/
def cex10St : StatRecord := ⟨some 6, none, none, none, none⟩

/-- A single description-template line with plain numbers. -/
def descLineA : Chars :=
  ("description: \"Complete geographical database with 250+ countries, " ++
   "5038+ states, and 151024+ cities in multiple formats\"").toList

/-- Document with two description-template lines. -/
def cex2Doc : Chars := descLineA ++ "\n".toList ++ descLineA

/-- StatRecord with countries, states and cities present. -/
def cex2St : StatRecord := ⟨none, none, some 250, some 5038, some 151024⟩

/-- Fixed current date for the idempotence counterexample. -/
def cex2Today : Chars := "21st September 2025".toList

/- ### Leftmost-replacement machinery for the idempotence proof -/
/-- No match of `m` can begin inside `x`, whatever follows. -/
def NoStart (m : Matcher) (x : Chars) : Prop :=
  ∀ (y : Chars) (j : Nat), j < x.length → m ((x ++ y).drop j) = none

/-- No match of `m` begins anywhere in `s`. -/
def NoMatch (m : Matcher) (s : Chars) : Prop :=
  ∀ j : Nat, m (s.drop j) = none

/-- Decidable sufficient condition for a literal to fail against `a` and
anything after it: neither is a prefix of the other. -/
def refutes (lit a : Chars) : Bool := !lit.isPrefixOf a && !a.isPrefixOf lit

/-- Comma-separated digit groups rendered back to a string. -/
def gsJoin (gs : List Chars) : Chars := (gs.map (fun g => ',' :: g)).flatten

/-- Well-formed numeral: a digit group followed by comma-digit groups. -/
def NumShape (g : Chars) (gs : List Chars) : Prop :=
  (g ≠ [] ∧ ∀ c ∈ g, c.isDigit = true) ∧
    (∀ x ∈ gs, x ≠ [] ∧ ∀ c ∈ x, c.isDigit = true)

/-- The standard frontmatter description line, with plain decimal numbers. -/
def stdDescLine (a b c : Nat) : Chars :=
  descPre ++ (natChars a ++ (descMid1 ++ (natChars b ++ (descMid2 ++
    (natChars c ++ descMid3)))))

/-- The five statistic anchor colors, in document order. -/
def blueC : Chars := "blue".toList

def greenC : Chars := "green".toList

def purpleC : Chars := "purple".toList

def orangeC : Chars := "orange".toList

def redC : Chars := "red".toList

/-- A standard statistic anchor with a formatted value. -/
def stdDiv (color : Chars) (n : Nat) : Chars :=
  divPre color ++ formatNumber n ++ divSuf

/-- Closing text after the date anchor in the standard document. -/
def tailC : Chars := "</p>".toList

/-- The date segment of the standard document. -/
def dateSeg (q : Chars) : Chars := datePre ++ (q ++ tailC)

/-- The five statistic anchors followed by the date segment. -/
def divsSeg (v1 v2 v3 v4 v5 : Nat) (q : Chars) : Chars :=
  stdDiv blueC v1 ++ (stdDiv greenC v2 ++ (stdDiv purpleC v3 ++
    (stdDiv orangeC v4 ++ (stdDiv redC v5 ++ dateSeg q))))

/-- A standard-shape overview document: frontmatter description line, free
filler, the five statistic anchors and a date anchor. -/
def stdDoc (a b c : Nat) (D : Chars) (v1 v2 v3 v4 v5 : Nat) (q : Chars) : Chars :=
  stdDescLine a b c ++ (D ++ divsSeg v1 v2 v3 v4 v5 q)

/-- A standard-shape document whose description line has already been
rewritten to the replacement text. -/
def stdDoc2 (c3 s4 ci5 : Nat) (D : Chars) (v1 v2 v3 v4 v5 : Nat) (q : Chars) : Chars :=
  descRepl c3 s4 ci5 ++ (D ++ divsSeg v1 v2 v3 v4 v5 q)

/-- Free text admissible in a standard document: it contains none of the
three characters that can begin an anchor pattern. -/
def FreeText (x : Chars) : Prop := ∀ ch ∈ x, ch ≠ '<' ∧ ch ≠ 'L' ∧ ch ≠ 'd'

instance freeTextDecidable (x : Chars) : Decidable (FreeText x) :=
  inferInstanceAs (Decidable (∀ ch ∈ x, ch ≠ '<' ∧ ch ≠ 'L' ∧ ch ≠ 'd'))

/-- The output shape of one rewriter pass over a standard document. -/
def stdResult (st : StatRecord) (a b c v1 v2 v3 v4 v5 : Nat) (D q t : Chars) : Chars :=
  if anyPresent st then
    match st.countries, st.states, st.cities with
    | some c3, some s4, some ci5 =>
        stdDoc2 c3 s4 ci5 D (st.regions.getD v1) (st.subregions.getD v2) c3 s4 ci5 t
    | _, _, _ =>
        stdDoc a b c D (st.regions.getD v1) (st.subregions.getD v2)
          (st.countries.getD v3) (st.states.getD v4) (st.cities.getD v5) t
  else stdDoc a b c D v1 v2 v3 v4 v5 q

theorem foldl_processLine (lines : List Chars) (acc : Parsed) :
    lines.foldl processLine acc =
      { features := acc.features ++
          (lines.filterMap bulletItem).filter
            (fun i => !skipItem i && classifyItem i == Category.feature),
        improvements := acc.improvements ++
          (lines.filterMap bulletItem).filter
            (fun i => !skipItem i && classifyItem i == Category.improvement),
        fixes := acc.fixes ++
          (lines.filterMap bulletItem).filter
            (fun i => !skipItem i && classifyItem i == Category.fix),
        breaking := acc.breaking } := by
  induction lines generalizing acc with
  | nil => simp
  | cons l ls ih =>
    rw [List.foldl_cons, ih]
    rcases hb : bulletItem l with _ | item
    · simp [processLine, hb]
    · rcases hs : skipItem item with _ | _
      · rcases hc : classifyItem item with _ | _ | _ <;>
          simp [processLine, hb, hs, hc]
      · simp [processLine, hb, hs]

theorem parse_features_eq (body : Chars) :
    (parseReleaseBody (some body)).features = keptFor Category.feature body := by
  rw [parseReleaseBody, foldl_processLine]
  simp [keptFor, itemsOf]

theorem parse_improvements_eq (body : Chars) :
    (parseReleaseBody (some body)).improvements = keptFor Category.improvement body := by
  rw [parseReleaseBody, foldl_processLine]
  simp [keptFor, itemsOf]

theorem parse_fixes_eq (body : Chars) :
    (parseReleaseBody (some body)).fixes = keptFor Category.fix body := by
  rw [parseReleaseBody, foldl_processLine]
  simp [keptFor, itemsOf]

theorem parse_breaking_eq (body : Chars) :
    (parseReleaseBody (some body)).breaking = breakingFlag body := by
  rw [parseReleaseBody, foldl_processLine]

theorem classifyItem_spec (i : Chars) :
    classifyItem i =
      if fixRule i then Category.fix
      else if featureRule i then Category.feature
      else Category.improvement := by
  simp only [classifyItem, fixRule, featureRule]

theorem mem_keptFor (c : Category) (body i : Chars) :
    i ∈ keptFor c body ↔ i ∈ itemsOf body ∧ skipItem i = false ∧ classifyItem i = c := by
  simp [keptFor, List.mem_filter, Bool.and_eq_true, and_assoc]

/-- C1: every non-empty, non-skipped bullet line of a release body is assigned
to a category by first matching rule, case-insensitive, in this precedence
order: a bullet satisfying the fix rule ("fix"/"resolve"/"solved") lands among
the fixes; otherwise one satisfying the feature rule ("add"/"new", or "support"
without "fix") lands among the features; otherwise it is an improvement.  A
bullet containing both "fix" and "add" is classified as a fix, and bullets
containing "made their first contribution", containing both "@" and "in #", or
containing "Full Changelog" are discarded from all three categories. -/
theorem claim1_bullet_classification (body i : Chars)
    (hmem : i ∈ itemsOf body) (hskip : skipItem i = false) :
    (i ∈ (parseReleaseBody (some body)).fixes ↔ fixRule i = true) ∧
    (i ∈ (parseReleaseBody (some body)).features ↔
      (fixRule i = false ∧ featureRule i = true)) ∧
    (i ∈ (parseReleaseBody (some body)).improvements ↔
      (fixRule i = false ∧ featureRule i = false)) ∧
    (∀ j : Chars, containsStr ("fix".toList) (lower j) = true →
      containsStr ("add".toList) (lower j) = true → classifyItem j = Category.fix) ∧
    (∀ j : Chars,
      (containsStr ("made their first contribution".toList) j ||
        (containsStr ("@".toList) j && containsStr ("in #".toList) j) ||
        containsStr ("Full Changelog".toList) j) = true →
      j ∉ (parseReleaseBody (some body)).fixes ∧
      j ∉ (parseReleaseBody (some body)).features ∧
      j ∉ (parseReleaseBody (some body)).improvements) := by
  rw [parse_features_eq, parse_improvements_eq, parse_fixes_eq]
  refine ⟨?_, ?_, ?_, ?_, ?_⟩
  · rw [mem_keptFor, classifyItem_spec i]
    cases hf : fixRule i <;> cases hfe : featureRule i <;>
      simp [hf, hfe, hmem, hskip]
  · rw [mem_keptFor, classifyItem_spec i]
    cases hf : fixRule i <;> cases hfe : featureRule i <;>
      simp [hf, hfe, hmem, hskip]
  · rw [mem_keptFor, classifyItem_spec i]
    cases hf : fixRule i <;> cases hfe : featureRule i <;>
      simp [hf, hfe, hmem, hskip]
  · intro j hfix _
    rw [classifyItem_spec j]
    have hf : fixRule j = true := by
      simp only [fixRule, Bool.or_eq_true]
      exact Or.inl (Or.inl hfix)
    simp [hf]
  · intro j hj
    have hsk : skipItem j = true := by
      simp only [skipItem]
      exact hj
    refine ⟨?_, ?_, ?_⟩ <;>
      · rw [mem_keptFor]
        rintro ⟨-, h, -⟩
        rw [hsk] at h
        cases h

theorem claim1_bullet_classification_witness :
    "Added new endpoint".toList ∈ itemsOf exBody ∧
    "Added new endpoint".toList ∈ (parseReleaseBody (some exBody)).features :=
  ⟨by decide,
    ((claim1_bullet_classification exBody ("Added new endpoint".toList)
      (by decide) (by decide)).2.1).mpr (by decide)⟩

theorem count_keptFor (c : Category) (body i : Chars) :
    (keptFor c body).count i =
      if !skipItem i && classifyItem i == c then (itemsOf body).count i else 0 := by
  rcases h : !skipItem i && classifyItem i == c with _ | _
  · rw [if_neg (by simp), List.count_eq_zero]
    intro hm
    rw [keptFor, List.mem_filter] at hm
    rw [hm.2] at h
    cases h
  · rw [if_pos rfl, keptFor]
    exact List.count_filter (by rw [h])

/-- C8: the parser output partitions the bullet lines: each of the three
category sequences is a sublist of the bullet-item sequence (hence items keep
their original relative order), every non-skipped bullet item occurrence lands
in exactly one of the three sequences (the occurrence counts add up), and
skipped items land in none of them. -/
theorem claim8_partition (body : Chars) :
    ((parseReleaseBody (some body)).features.Sublist (itemsOf body) ∧
      (parseReleaseBody (some body)).improvements.Sublist (itemsOf body) ∧
      (parseReleaseBody (some body)).fixes.Sublist (itemsOf body)) ∧
    (∀ i : Chars, skipItem i = false →
      (itemsOf body).count i =
        (parseReleaseBody (some body)).features.count i +
        (parseReleaseBody (some body)).improvements.count i +
        (parseReleaseBody (some body)).fixes.count i) ∧
    (∀ i : Chars, skipItem i = true →
      (parseReleaseBody (some body)).features.count i = 0 ∧
      (parseReleaseBody (some body)).improvements.count i = 0 ∧
      (parseReleaseBody (some body)).fixes.count i = 0) := by
  rw [parse_features_eq, parse_improvements_eq, parse_fixes_eq]
  refine ⟨⟨List.filter_sublist _, List.filter_sublist _, List.filter_sublist _⟩, ?_, ?_⟩
  · intro i hskip
    rw [count_keptFor, count_keptFor, count_keptFor]
    rcases hc : classifyItem i with _ | _ | _ <;> simp [hskip, hc]
  · intro i hskip
    rw [count_keptFor, count_keptFor, count_keptFor]
    simp [hskip]

theorem isPrefixOf_true_iff {l₁ l₂ : List Char} : l₁.isPrefixOf l₂ = true ↔ l₁ <+: l₂ := by
  simp

theorem splitLines_ne_nil (s : Chars) : splitLines s ≠ [] := by
  match s with
  | [] => simp [splitLines]
  | c :: cs =>
    rw [splitLines]
    by_cases h : c = '\n'
    · simp [h]
    · rcases hs : splitLines cs with _ | ⟨l, ls⟩ <;> simp [h]

theorem joinLines_splitLines (s : Chars) : joinLines (splitLines s) = s := by
  induction s with
  | nil => rfl
  | cons c cs ih =>
    rw [splitLines]
    by_cases h : c = '\n'
    · rw [if_pos h]
      rcases hs : splitLines cs with _ | ⟨l, ls⟩
      · exact absurd hs (splitLines_ne_nil cs)
      · rw [hs] at ih
        rw [joinLines, h]
        · simp [ih]
        · simp
    · rw [if_neg h]
      rcases hs : splitLines cs with _ | ⟨l, ls⟩
      · exact absurd hs (splitLines_ne_nil cs)
      · rw [hs] at ih
        rcases ls with _ | ⟨l₂, ls'⟩
        · rw [joinLines] at ih ⊢
          rw [ih]
        · rw [joinLines] at ih ⊢
          · rw [List.cons_append, ih]
          · simp
          · simp

theorem splitLines_no_newline (s : Chars) : ∀ l ∈ splitLines s, '\n' ∉ l := by
  induction s with
  | nil => intro l hl; simp [splitLines] at hl; simp [hl]
  | cons c cs ih =>
    intro l hl
    rw [splitLines] at hl
    by_cases h : c = '\n'
    · rw [if_pos h, List.mem_cons] at hl
      rcases hl with hl | hl
      · simp [hl]
      · exact ih l hl
    · rw [if_neg h] at hl
      rcases hs : splitLines cs with _ | ⟨l₀, ls⟩
      · exact absurd hs (splitLines_ne_nil cs)
      · rw [hs, List.mem_cons] at hl
        rcases hl with hl | hl
        · subst hl
          intro hmem
          rw [List.mem_cons] at hmem
          rcases hmem with hmem | hmem
          · exact h hmem.symm
          · exact ih l₀ (by rw [hs]; exact List.mem_cons_self l₀ ls) hmem
        · exact ih l (by rw [hs]; exact List.mem_cons_of_mem l₀ hl)

theorem lower_append (a b : Chars) : lower (a ++ b) = lower a ++ lower b :=
  List.map_append _ a b

theorem lower_length (s : Chars) : (lower s).length = s.length :=
  List.length_map s _

theorem lower_cons (c : Char) (s : Chars) :
    lower (c :: s) = Char.toLower c :: lower s := rfl

/-- A newline-free pattern cannot reach across a newline boundary. -/
theorem isPrefixOf_append_newline {p : Chars} (hnl : '\n' ∉ p) (a b : Chars) :
    p.isPrefixOf (a ++ '\n' :: b) = p.isPrefixOf a := by
  induction p generalizing a with
  | nil => simp
  | cons q p' ih =>
    have hq : q ≠ '\n' := fun h => hnl (h ▸ List.mem_cons_self q p')
    rcases a with _ | ⟨x, a'⟩
    · simp [List.isPrefixOf, hq]
    · have hnl' : '\n' ∉ p' := fun h => hnl (List.mem_cons_of_mem q h)
      simp only [List.cons_append, List.isPrefixOf_cons₂]
      rw [ih hnl']

theorem findCi_append_line (pat l rest : Chars) (hne : pat ≠ [])
    (hnl : '\n' ∉ lower pat) :
    findCi pat (l ++ '\n' :: rest) =
      match findCi pat l with
      | some t => some (t ++ '\n' :: rest)
      | none => findCi pat rest := by
  induction l with
  | nil =>
    rw [List.nil_append]
    have h0 : findCi pat [] = none := by
      rw [findCi, if_neg]
      simp [hne]
    rw [h0]
    show findCi pat ('\n' :: rest) = findCi pat rest
    have hfail : (lower pat).isPrefixOf (lower ('\n' :: rest)) = false := by
      rcases hp : lower pat with _ | ⟨q, ps⟩
      · exact absurd (List.map_eq_nil_iff.mp hp) hne
      · have hq : q ≠ '\n' := fun h => hnl (by rw [hp, h]; exact List.mem_cons_self _ _)
        rw [lower_cons]
        simp [List.isPrefixOf, hq]
    rw [findCi, hfail]
    simp
  | cons c l' ih =>
    have hcond : (lower pat).isPrefixOf (lower (c :: (l' ++ '\n' :: rest))) =
        (lower pat).isPrefixOf (lower (c :: l')) := by
      have h1 : lower (c :: (l' ++ '\n' :: rest)) =
          (Char.toLower c :: lower l') ++ '\n' :: lower rest := by
        rw [lower_cons, lower_append]
        rfl
      rw [h1, isPrefixOf_append_newline hnl]
      rfl
    show findCi pat (c :: (l' ++ '\n' :: rest)) = _
    rw [findCi, hcond]
    by_cases hp : (lower pat).isPrefixOf (lower (c :: l')) = true
    · rw [if_pos hp]
      have hr : findCi pat (c :: l') = some ((c :: l').drop pat.length) := by
        rw [findCi, if_pos hp]
      rw [hr]
      have hlen : pat.length ≤ (c :: l').length := by
        have h2 := (isPrefixOf_true_iff.mp hp).length_le
        simpa [lower] using h2
      have hdrop : List.drop pat.length (c :: (l' ++ '\n' :: rest)) =
          List.drop pat.length (c :: l') ++ '\n' :: rest := by
        rw [← List.cons_append]
        exact List.drop_append_of_le_length hlen
      rw [hdrop]
    · rw [if_neg hp]
      have hr : findCi pat (c :: l') = findCi pat l' := by
        rw [findCi, if_neg hp]
      rw [hr, ih]

theorem findCi_joinLines (pat : Chars) (hne : pat ≠ []) (hnl : '\n' ∉ lower pat) :
    ∀ ls : List Chars, findCi pat (joinLines ls) =
      (lineFind pat ls).map (fun p => p.1 ++ joinTail p.2)
  | [] => by
    have h0 : findCi pat [] = none := by
      rw [findCi, if_neg]
      simp [hne]
    rw [joinLines, h0]
    rfl
  | [l] => by
    rw [joinLines, lineFind]
    rcases h : findCi pat l with _ | t <;> simp [h, joinTail, lineFind]
  | l :: l₂ :: ls => by
    have hj : joinLines (l :: l₂ :: ls) = l ++ '\n' :: joinLines (l₂ :: ls) := rfl
    rw [hj, findCi_append_line pat l _ hne hnl, lineFind]
    rcases h : findCi pat l with _ | t
    · rw [findCi_joinLines pat hne hnl (l₂ :: ls)]
    · simp [joinTail]

theorem findSome?_eq_lineFind (pat : Chars) (ls : List Chars) :
    (ls.findSome? (fun l => (findCi pat l).map jsTrim)) =
      (lineFind pat ls).map (fun p => jsTrim p.1) := by
  induction ls with
  | nil => rfl
  | cons l ls ih =>
    rw [List.findSome?_cons, lineFind]
    rcases h : findCi pat l with _ | t <;> simp [h, ih]

theorem findCi_extend_none {p : Chars} (e : Chars) {l : Chars}
    (h : findCi p l = none) : findCi (p ++ e) l = none := by
  induction l with
  | nil =>
    rw [findCi] at h ⊢
    rcases hp : p with _ | ⟨a, p'⟩
    · rw [hp] at h; simp at h
    · rw [if_neg]
      simp
  | cons c cs ih =>
    rw [findCi] at h ⊢
    by_cases hp : (lower p).isPrefixOf (lower (c :: cs)) = true
    · rw [if_pos hp] at h; cases h
    · rw [if_neg hp] at h
      have hpe : ¬((lower (p ++ e)).isPrefixOf (lower (c :: cs)) = true) := by
        intro hx
        refine hp (isPrefixOf_true_iff.mpr ?_)
        have h₁ : lower p <+: lower (p ++ e) := ⟨lower e, (lower_append p e).symm⟩
        exact h₁.trans (isPrefixOf_true_iff.mp hx)
      rw [if_neg hpe]
      exact ih h

theorem findCi_some_decomp (pat : Chars) : ∀ {l t : Chars},
    findCi pat l = some t → ∃ u : Chars, u ++ t = l := by
  intro l
  induction l with
  | nil =>
    intro t h
    rw [findCi] at h
    by_cases hp : pat.isEmpty = true
    · rw [if_pos hp] at h
      injection h with h
      exact ⟨[], by rw [← h]; rfl⟩
    · rw [if_neg hp] at h; cases h
  | cons c cs ih =>
    intro t h
    rw [findCi] at h
    by_cases hp : (lower pat).isPrefixOf (lower (c :: cs)) = true
    · rw [if_pos hp] at h
      injection h with h
      exact ⟨(c :: cs).take pat.length, by rw [← h]; exact List.take_append_drop _ _⟩
    · rw [if_neg hp] at h
      obtain ⟨u, hu⟩ := ih h
      exact ⟨c :: u, by rw [List.cons_append, hu]⟩

theorem findCi_colon_extend (p : Chars) : ∀ (l t : Chars),
    findCi p l = some (':' :: t) → findCi (p ++ [':']) l = some t := by
  intro l
  induction l with
  | nil =>
    intro t h
    rw [findCi] at h
    by_cases hp : p.isEmpty = true
    · rw [if_pos hp] at h
      injection h with h; cases h
    · rw [if_neg hp] at h; cases h
  | cons c cs ih =>
    intro t h
    rw [findCi] at h ⊢
    by_cases hp : (lower p).isPrefixOf (lower (c :: cs)) = true
    · rw [if_pos hp] at h
      injection h with h
      have hpre : lower p <+: lower (c :: cs) := isPrefixOf_true_iff.mp hp
      have hlen : p.length ≤ (c :: cs).length := by
        have h2 := hpre.length_le
        rw [lower_length, lower_length] at h2
        exact h2
      have htake : (lower (c :: cs)).take p.length = lower p := by
        obtain ⟨r, hr⟩ := hpre
        rw [← hr, List.take_append_of_le_length (by rw [lower_length])]
        simp [lower_length]
      have hsplit : lower (c :: cs) = lower p ++ ':' :: lower t := by
        conv_lhs => rw [← List.take_append_drop p.length (lower (c :: cs))]
        rw [htake]
        congr 1
        have hmapdrop : (lower (c :: cs)).drop p.length = lower ((c :: cs).drop p.length) := by
          simp [lower, List.map_drop]
        rw [hmapdrop, h]
        rfl
      have hp2 : (lower (p ++ [':'])).isPrefixOf (lower (c :: cs)) = true := by
        rw [isPrefixOf_true_iff, lower_append, hsplit]
        refine ⟨lower t, ?_⟩
        have hc : lower [':'] = [':'] := by decide
        rw [List.append_assoc, hc]
        rfl
      rw [if_pos hp2]
      congr 1
      have hlen1 : (p ++ [':']).length = p.length + 1 := by simp
      rw [hlen1]
      have hstep := congrArg (List.drop 1) h
      rw [List.drop_drop] at hstep
      rw [hstep]
      rfl
    · rw [if_neg hp] at h
      have hpe : ¬((lower (p ++ [':'])).isPrefixOf (lower (c :: cs)) = true) := by
        intro hx
        refine hp (isPrefixOf_true_iff.mpr ?_)
        have h₁ : lower p <+: lower (p ++ [':']) := ⟨lower [':'], (lower_append p [':']).symm⟩
        exact h₁.trans (isPrefixOf_true_iff.mp hx)
      rw [if_neg hpe]
      exact ih t h

theorem dropWhile_head_false (p : Char → Bool) : ∀ (l : Chars) (d : Char) (r : Chars),
    l.dropWhile p = d :: r → p d = false := by
  intro l
  induction l with
  | nil => intro d r h; cases h
  | cons c cs ih =>
    intro d r h
    rw [List.dropWhile_cons] at h
    by_cases hp : p c = true
    · rw [if_pos hp] at h
      exact ih d r h
    · rw [if_neg hp] at h
      injection h with h1 h2
      rcases hpc : p c with _ | _
      · rw [← h1]; exact hpc
      · exact absurd hpc hp

theorem takeWhile_append_of_all {p : Char → Bool} {a : Chars}
    (ha : ∀ c ∈ a, p c = true) (x : Chars) :
    (a ++ x).takeWhile p = a ++ x.takeWhile p := by
  rw [List.takeWhile_append, if_pos (by rw [List.takeWhile_eq_self_iff.mpr ha])]

theorem takeWhile_append_of_ne {p : Char → Bool} {a : Chars} (x : Chars)
    (h : a.takeWhile p ≠ a) :
    (a ++ x).takeWhile p = a.takeWhile p := by
  rw [List.takeWhile_append, if_neg]
  intro hlen
  have hpre : a.takeWhile p <+: a := ⟨a.dropWhile p, List.takeWhile_append_dropWhile p a⟩
  exact h (hpre.eq_of_length hlen)

theorem dropWhile_append_of_all {p : Char → Bool} {a : Chars}
    (ha : ∀ c ∈ a, p c = true) (x : Chars) :
    (a ++ x).dropWhile p = x.dropWhile p := by
  rw [List.dropWhile_append, if_pos (by rw [List.dropWhile_eq_nil_iff.mpr ha]; rfl)]

theorem dropWhile_append_of_ne {p : Char → Bool} {a : Chars} (x : Chars)
    (h : a.dropWhile p ≠ []) :
    (a ++ x).dropWhile p = a.dropWhile p ++ x := by
  rw [List.dropWhile_append, if_neg (by simpa using h)]

theorem jsTrim_ws_append {a : Chars} (ha : ∀ c ∈ a, isWs c = true) (x : Chars) :
    jsTrim (a ++ x) = jsTrim x := by
  rw [jsTrim, jsTrim, dropWhile_append_of_all ha]

theorem lineFind_some_mem (pat : Chars) : ∀ (ls : List Chars) (w : Chars) (r : List Chars),
    lineFind pat ls = some (w, r) → ∃ l ∈ ls, findCi pat l = some w := by
  intro ls
  induction ls with
  | nil => intro w r h; cases h
  | cons l ls ih =>
    intro w r h
    rw [lineFind] at h
    rcases hf : findCi pat l with _ | t
    · rw [hf] at h
      obtain ⟨l', hl', hfl⟩ := ih w r h
      exact ⟨l', List.mem_cons_of_mem l hl', hfl⟩
    · rw [hf] at h
      injection h with h
      injection h with h1 h2
      exact ⟨l, List.mem_cons_self l ls, by rw [hf, h1]⟩

theorem lineFind_colon (p : Chars) : ∀ (ls : List Chars) (t : Chars) (r : List Chars),
    lineFind p ls = some (':' :: t, r) → lineFind (p ++ [':']) ls = some (t, r) := by
  intro ls
  induction ls with
  | nil => intro t r h; cases h
  | cons l ls ih =>
    intro t r h
    rw [lineFind] at h ⊢
    rcases hf : findCi p l with _ | w
    · rw [hf] at h
      rw [findCi_extend_none [':'] hf]
      exact ih t r h
    · rw [hf] at h
      injection h with h
      injection h with h1 h2
      rw [findCi_colon_extend p l t (by rw [hf, h1]), h2]

theorem breakingCapture_eq (body rest : Chars)
    (h : findCi ("BREAKING CHANGE".toList) body = some rest) :
    breakingCapture body =
      some ((rest.dropWhile isSep).takeWhile (fun c => !isLineTerm c)) := by
  rw [breakingCapture, h]
  rfl

theorem breakingDescOf_some (b cap : Chars) (h : breakingCapture b = some cap) :
    breakingDescOf (some b) = jsTrim cap := by
  rw [breakingDescOf, h]

theorem claim7_counterexample :
    breakingFlag cex7Body = true ∧
    specBreakingDescription cex7Body = [] ∧
    breakingDescOf (some cex7Body) = "all apis renamed".toList ∧
    breakingDescOf (some cex7Body) ≠ specBreakingDescription cex7Body := by
  refine ⟨by decide, by decide, by decide, by decide⟩

/-- C7 (amended): the breaking flag is true iff the body contains,
case-insensitively, "breaking change" or "!!breaking"; the rendered
description comes from the first case-insensitive occurrence of the literal
"BREAKING CHANGE": the regex skips the following run of colons and whitespace
(which may cross line breaks) and captures up to the end of the line where
that run stops, trimmed.  Whenever the marker is followed directly by a single
colon whose separator run stays on the marker's line and that line's remainder
holds no bare carriage return, this agrees with the claim's reading — the
remainder of the first line matching the "BREAKING CHANGE:" marker, trimmed.
With no marker occurrence the description is the fixed generic sentence, and
a body containing "!!breaking: schema changed" yields a true flag. -/
theorem claim7_breaking (body rest : Chars)
    (h1 : findCi ("BREAKING CHANGE".toList) body = some rest)
    (h2 : rest.head? = some ':')
    (h3 : ((rest.drop 1).takeWhile isSep).all (fun c => !(c == ':') && !isLineTerm c) = true)
    (h4 : ((rest.drop 1).takeWhile (fun c => !(c == '\n'))).all (fun c => !(c == '\r')) = true) :
    breakingDescOf (some body) = specBreakingDescription body ∧
    ((parseReleaseBody (some body)).breaking = true ↔
      (containsStr ("breaking change".toList) (lower body) ||
        containsStr ("!!breaking".toList) (lower body)) = true) ∧
    (∀ b : Chars, findCi ("BREAKING CHANGE".toList) b = none →
      breakingDescOf (some b) = "This release contains breaking changes.".toList) ∧
    breakingFlag ("!!breaking: schema changed".toList) = true := by
  refine ⟨?_, ?_, ?_, by decide⟩
  · have hne : ("BREAKING CHANGE".toList : Chars) ≠ [] := by decide
    have hnl : '\n' ∉ lower ("BREAKING CHANGE".toList) := by decide
    have hfind : findCi ("BREAKING CHANGE".toList) (joinLines (splitLines body)) = some rest := by
      rw [joinLines_splitLines body]
      exact h1
    rw [findCi_joinLines _ hne hnl, Option.map_eq_some'] at hfind
    obtain ⟨⟨w, ls'⟩, hlf, hw⟩ := hfind
    obtain ⟨lstar, hmem, hfl⟩ := lineFind_some_mem _ _ _ _ hlf
    obtain ⟨u, hu⟩ := findCi_some_decomp _ hfl
    have hwnl : '\n' ∉ w := fun hc =>
      splitLines_no_newline body lstar hmem (hu ▸ List.mem_append_right u hc)
    rcases w with _ | ⟨c₀, w'⟩
    · exfalso
      rw [← hw, List.nil_append] at h2
      rcases ls' with _ | ⟨l₂, ls₂⟩
      · rw [joinTail] at h2
        simp at h2
      · rw [joinTail, List.head?_cons] at h2
        injection h2 with h2
        exact (by decide : ('\n' : Char) ≠ ':') h2
    · have hrest : rest = c₀ :: (w' ++ joinTail ls') := by
        rw [← hw]
        rfl
      have hc₀ : c₀ = ':' := by
        rw [hrest, List.head?_cons] at h2
        injection h2
      subst hc₀
      have hdrop1 : rest.drop 1 = w' ++ joinTail ls' := by
        rw [hrest]
        rfl
      have hwnl' : ∀ c ∈ w', (!(c == '\n')) = true := by
        intro c hc
        have hcc : c ≠ '\n' := fun he => hwnl (he ▸ List.mem_cons_of_mem _ hc)
        simp [hcc]
      have htw : (rest.drop 1).takeWhile (fun c => !(c == '\n')) = w' := by
        rw [hdrop1, takeWhile_append_of_all hwnl']
        rcases ls' with _ | ⟨l₂, ls₂⟩
        · rw [joinTail]
          simp
        · rw [joinTail, List.takeWhile_cons, if_neg (by decide)]
          rw [List.append_nil]
      rw [htw, List.all_eq_true] at h4
      rw [hdrop1] at h3
      -- the spec-side value
      have hlf2 : lineFind ("BREAKING CHANGE:".toList) (splitLines body) = some (w', ls') := by
        have hpq : ("BREAKING CHANGE:".toList : Chars) = "BREAKING CHANGE".toList ++ [':'] := by
          decide
        rw [hpq]
        exact lineFind_colon _ _ _ _ hlf
      have hspec : specBreakingDescription body = jsTrim w' := by
        rw [specBreakingDescription, findSome?_eq_lineFind, hlf2]
        rfl
      have hlhs := breakingDescOf_some body _ (breakingCapture_eq body rest h1)
      have hdws : rest.dropWhile isSep = (w' ++ joinTail ls').dropWhile isSep := by
        rw [hrest, List.dropWhile_cons, if_pos (by decide)]
      rcases hdw : w'.dropWhile isSep with _ | ⟨d, w''⟩
      · have hall : ∀ c ∈ w', isSep c = true := List.dropWhile_eq_nil_iff.mp hdw
        rcases ls' with _ | ⟨l₂, ls₂⟩
        · have hc1 : rest.dropWhile isSep = [] := by
            rw [hdws, joinTail, List.append_nil, hdw]
          rw [hc1] at hlhs
          rw [hlhs, hspec]
          have hws : ∀ c ∈ w', isWs c = true := by
            rw [joinTail, List.append_nil] at h3
            rw [List.takeWhile_eq_self_iff.mpr hall, List.all_eq_true] at h3
            intro c hc
            have hp := h3 c hc
            have hsep := hall c hc
            simp only [Bool.and_eq_true, Bool.not_eq_true', beq_eq_false_iff_ne] at hp
            simp only [isSep, Bool.or_eq_true, decide_eq_true_eq] at hsep
            rcases hsep with hsep | hsep
            · exact absurd hsep hp.1
            · exact hsep
          calc jsTrim (List.takeWhile (fun c => !isLineTerm c) []) = jsTrim [] := rfl
            _ = jsTrim (w' ++ []) := (jsTrim_ws_append hws []).symm
            _ = jsTrim w' := by rw [List.append_nil]
        · exfalso
          rw [joinTail, takeWhile_append_of_all hall, List.takeWhile_cons,
            if_pos (by decide), List.all_eq_true] at h3
          have h5 := h3 '\n' (List.mem_append_right _ (List.mem_cons_self _ _))
          exact absurd h5 (by decide)
      · have hdfalse : isSep d = false := dropWhile_head_false isSep w' d w'' hdw
        have hsplit' : w'.takeWhile isSep ++ d :: w'' = w' := by
          rw [← hdw]
          exact List.takeWhile_append_dropWhile isSep w'
        have hrun : (w' ++ joinTail ls').takeWhile isSep = w'.takeWhile isSep := by
          apply takeWhile_append_of_ne
          intro he
          have h0 : w'.dropWhile isSep = [] :=
            List.dropWhile_eq_nil_iff.mpr (List.takeWhile_eq_self_iff.mp he)
          rw [hdw] at h0
          cases h0
        rw [hrun, List.all_eq_true] at h3
        have hws : ∀ c ∈ w'.takeWhile isSep, isWs c = true := by
          intro c hc
          have hp := h3 c hc
          have hsep := List.mem_takeWhile_imp hc
          simp only [Bool.and_eq_true, Bool.not_eq_true', beq_eq_false_iff_ne] at hp
          simp only [isSep, Bool.or_eq_true, decide_eq_true_eq] at hsep
          rcases hsep with hsep | hsep
          · exact absurd hsep hp.1
          · exact hsep
        have hc1 : rest.dropWhile isSep = (d :: w'') ++ joinTail ls' := by
          rw [hdws, dropWhile_append_of_ne _ (by rw [hdw]; exact List.cons_ne_nil d w''), hdw]
        have hnolt : ∀ c ∈ d :: w'', (!isLineTerm c) = true := by
          intro c hc
          have hcw' : c ∈ w' := by
            rw [← hsplit']
            exact List.mem_append_right _ hc
          have hnlc : c ≠ '\n' := fun he => hwnl (he ▸ List.mem_cons_of_mem _ hcw')
          have hnrc : c ≠ '\r' := by
            have h6 := h4 c hcw'
            simpa using h6
          simp [isLineTerm, hnlc, hnrc]
        have hcap2 : (rest.dropWhile isSep).takeWhile (fun c => !isLineTerm c) = d :: w'' := by
          rw [hc1, takeWhile_append_of_all hnolt]
          rcases ls' with _ | ⟨l₂, ls₂⟩
          · rw [joinTail]
            simp
          · rw [joinTail, List.takeWhile_cons, if_neg (by decide), List.append_nil]
        rw [hcap2] at hlhs
        rw [hlhs, hspec]
        calc jsTrim (d :: w'') = jsTrim (w'.takeWhile isSep ++ d :: w'') :=
              (jsTrim_ws_append hws _).symm
          _ = jsTrim w' := by rw [hsplit']
  · rw [parse_breaking_eq, breakingFlag]
  · intro b hb
    rw [breakingDescOf, breakingCapture, hb]
    rfl

theorem claim7_breaking_witness :
    findCi ("BREAKING CHANGE".toList) w7Body = some w7Rest ∧
    breakingDescOf (some w7Body) = specBreakingDescription w7Body ∧
    breakingDescOf (some w7Body) = "drop v1 api".toList :=
  ⟨by decide,
    (claim7_breaking w7Body w7Rest (by decide) (by decide) (by decide) (by decide)).1,
    by decide⟩

/-- C6: each category section of the rendered update block caps its items at
8: an empty category omits its heading entirely, a non-empty category renders
a heading followed by exactly the first `min 8 n` items of the category, in
their original order (a 12-item category renders exactly 8). -/
theorem claim6_section_cap (heading : Chars) (items : List Chars) :
    renderSection heading [] = ([] : Chars) ∧
    (items ≠ [] →
      renderSection heading items =
        "## ".toList ++ heading ++ "\n".toList ++
          ((items.take 8).map (fun i => "- ".toList ++ i ++ "\n".toList)).flatten ++
          "\n".toList) ∧
    (items.take 8).length = min 8 items.length ∧
    items.take 8 <+: items := by
  refine ⟨rfl, ?_, List.length_take 8 items, ⟨items.drop 8, List.take_append_drop 8 items⟩⟩
  intro h
  rw [renderSection, if_pos (List.length_pos.mpr h)]

theorem claim6_section_cap_witness :
    (parseReleaseBody (some twelveBody)).features ≠ [] ∧
    (parseReleaseBody (some twelveBody)).features.length = 12 ∧
    ((parseReleaseBody (some twelveBody)).features.take 8).length = 8 ∧
    renderSection ("New Features".toList) (parseReleaseBody (some twelveBody)).features =
      "## ".toList ++ "New Features".toList ++ "\n".toList ++
        (((parseReleaseBody (some twelveBody)).features.take 8).map
          (fun i => "- ".toList ++ i ++ "\n".toList)).flatten ++ "\n".toList := by
  refine ⟨by decide, by decide, ?_, ?_⟩
  · rw [(claim6_section_cap ("New Features".toList)
      (parseReleaseBody (some twelveBody)).features).2.2.1]
    decide
  · exact (claim6_section_cap ("New Features".toList)
      (parseReleaseBody (some twelveBody)).features).2.1 (by decide)

theorem sorted_yearKeys (rs : List Release) : (yearKeys rs).Sorted (· > ·) := by
  have hpw : (yearKeys rs).Sorted yearDesc := by
    rw [yearKeys]
    exact List.sorted_insertionSort yearDesc _
  have hnd : (yearKeys rs).Nodup := by
    rw [yearKeys]
    exact ((List.perm_insertionSort yearDesc _).nodup_iff).mpr (List.nodup_dedup _)
  exact (hpw.and hnd).imp (fun h => lt_of_le_of_ne h.1 (fun he => h.2 he.symm))

theorem mem_yearKeys (rs : List Release) (y : Nat) :
    y ∈ yearKeys rs ↔ y ∈ rs.map (fun r => yearOf r.published_at) := by
  rw [yearKeys, (List.perm_insertionSort yearDesc _).mem_iff]
  exact List.mem_dedup

theorem yearReleases_sorted (rs : List Release) (y : Nat) :
    (yearReleases rs y).Sorted releaseDesc := by
  rw [yearReleases]
  exact List.sorted_insertionSort releaseDesc _

theorem yearGroups_keys (rs : List Release) :
    (yearGroups rs).map Prod.fst = yearKeys rs := by
  have hmap : ∀ l : List Nat,
      (l.map (fun y => (y, yearReleases rs y))).map Prod.fst = l := by
    intro l
    induction l with
    | nil => rfl
    | cons a l ih => simp [ih]
  exact hmap (yearKeys rs)

/-- C5: the changelog renderer emits one year group per distinct calendar year
of a publish timestamp (the group keys are exactly the years occurring among
the releases, strictly descending, hence one heading each), within each year
the releases are ordered by publish timestamp descending and are exactly the
year's releases, and the rendered document is the frontmatter followed by one
`## <year>` block per group and the static footer. -/
theorem claim5_year_grouping (rs : List Release) :
    ((yearGroups rs).map Prod.fst).Sorted (· > ·) ∧
    (∀ y : Nat, y ∈ (yearGroups rs).map Prod.fst ↔
      y ∈ rs.map (fun r => yearOf r.published_at)) ∧
    (∀ g ∈ yearGroups rs,
      g.2.Sorted releaseDesc ∧
      g.2.Perm (rs.filter (fun r => yearOf r.published_at == g.1))) ∧
    generateChangelogContent rs =
      changelogFrontMatter ++
      ((yearGroups rs).map (fun g =>
        "## ".toList ++ natChars g.1 ++ "\n\n".toList ++
          (g.2.map (fun r => generateUpdateComponent r ++ "\n".toList)).flatten)).flatten ++
      changelogFooter := by
  refine ⟨?_, ?_, ?_, rfl⟩
  · rw [yearGroups_keys]
    exact sorted_yearKeys rs
  · intro y
    rw [yearGroups_keys]
    exact mem_yearKeys rs y
  · intro g hg
    rw [yearGroups, List.mem_map] at hg
    obtain ⟨y, hy, hgy⟩ := hg
    rw [← hgy]
    exact ⟨yearReleases_sorted rs y, List.perm_insertionSort releaseDesc _⟩

theorem claim5_year_grouping_witness :
    ((yearGroups exReleases).map Prod.fst).Sorted (· > ·) ∧
    ((2024 : Nat) ∈ (yearGroups exReleases).map Prod.fst ↔
      (2024 : Nat) ∈ exReleases.map (fun r => yearOf r.published_at)) ∧
    (yearGroups exReleases).map Prod.fst = [2024, 2023] ∧
    exReleases.length = 10 :=
  ⟨(claim5_year_grouping exReleases).1,
    (claim5_year_grouping exReleases).2.1 2024, by decide, by decide⟩

theorem findStat_append_of_none (label : Chars → Option Chars) :
    ∀ (u v : Chars), (∀ j, j < u.length → statMatchAt label ((u ++ v).drop j) = none) →
    findStat label (u ++ v) = findStat label v := by
  intro u
  induction u with
  | nil => intro v _; rfl
  | cons c u' ih =>
    intro v h
    show findStat label (c :: (u' ++ v)) = _
    rw [findStat]
    have h0 := h 0 (Nat.succ_pos _)
    rw [List.drop_zero, List.cons_append] at h0
    rw [h0]
    exact ih v (fun j hj => by
      have h1 := h (j + 1) (Nat.succ_lt_succ hj)
      simpa using h1)

theorem findStat_of_matchAt (label : Chars → Option Chars) (v cap : Chars)
    (h : statMatchAt label v = some cap) : findStat label v = some cap := by
  rcases v with _ | ⟨c, cs⟩
  · have h0 : stripCi ("Total".toList) ([] : Chars) = none := by decide
    rw [statMatchAt, h0] at h
    cases h
  · rw [findStat, h]

/-- C3: each of the five README statistics is extracted by its own independent
case-insensitive pattern search, whose field holds exactly the leftmost match's
integer with thousands separators stripped; a pattern occurrence with no
earlier match is the one extracted, a label whose pattern matches nowhere
yields an unset field without affecting the other four and without error. -/
theorem claim3_statistics (readme : Chars) :
    ((parseStatistics readme).regions = (findStat labelRegions readme).map parseNum ∧
     (parseStatistics readme).subregions = (findStat labelSubRegions readme).map parseNum ∧
     (parseStatistics readme).countries = (findStat labelCountries readme).map parseNum ∧
     (parseStatistics readme).states = (findStat labelStates readme).map parseNum ∧
     (parseStatistics readme).cities = (findStat labelCities readme).map parseNum) ∧
    (∀ (label : Chars → Option Chars) (u v cap : Chars),
      readme = u ++ v → statMatchAt label v = some cap →
      (∀ j, j < u.length → statMatchAt label (readme.drop j) = none) →
      findStat label readme = some cap) ∧
    (findStat labelStates readme = none → (parseStatistics readme).states = none) ∧
    (∀ ds : Chars, parseNum ds = digitsToNat (ds.filter (fun c => !(c == ',')))) := by
  refine ⟨⟨rfl, rfl, rfl, rfl, rfl⟩, ?_, ?_, fun ds => rfl⟩
  · intro label u v cap hsplit hm hnone
    subst hsplit
    rw [findStat_append_of_none label u v hnone]
    exact findStat_of_matchAt label v cap hm
  · intro h
    show (findStat labelStates readme).map parseNum = none
    rw [h]
    rfl

theorem claim3_statistics_witness :
    parseStatistics exReadme =
      ⟨some 6, some 22, some 250, some 5038, some 151024⟩ ∧
    findStat labelStates exReadme = some ("5,038".toList) ∧
    parseNum ("5,038".toList) = 5038 ∧
    parseStatistics ("Total Countries : 250\nTotal Cities : 151,024".toList) =
      ⟨none, none, some 250, none, some 151024⟩ := by
  refine ⟨by decide, ?_, by decide, by decide⟩
  exact (claim3_statistics exReadme).2.1 labelStates exReadmePre exReadmeSuf
    ("5,038".toList) rfl (by decide) (by decide)

/-- C4: with all five statistics unset, the rewriter performs no replacement
at all — the document (anchors, date line, frontmatter description included)
is returned byte-identical. -/
theorem claim4_zero_stats (st : StatRecord) (today doc : Chars)
    (h1 : st.regions = none) (h2 : st.subregions = none) (h3 : st.countries = none)
    (h4 : st.states = none) (h5 : st.cities = none) :
    updateOverview st today doc = doc := by
  rw [updateOverview]
  simp [applyStat, anyPresent, h1, h2, h3, h4, h5]

theorem claim4_zero_stats_witness :
    updateOverview ⟨none, none, none, none, none⟩ ("11th October 2025".toList)
      ("<p>Last Updated: never</p>".toList) = ("<p>Last Updated: never</p>".toList) :=
  claim4_zero_stats ⟨none, none, none, none, none⟩ _ _ rfl rfl rfl rfl rfl

theorem claim10_counterexample :
    cex10St.states = none ∧
    updateOverview cex10St ("11th October 2025".toList) cex10Doc =
      ("Last Updated: 11th October 2025").toList ∧
    containsStr ("description: \"Complete".toList) cex10Doc = true ∧
    containsStr ("description: \"Complete".toList)
      (updateOverview cex10St ("11th October 2025".toList) cex10Doc) = false :=
  ⟨rfl, by decide, by decide, by decide⟩

/-- C10 (amended): the frontmatter description substitution is attempted iff
countries, states and cities are all present: with any of the three unset the
rewrite behaves exactly as the same pipeline without the description step
(which may still alter a description line through the other replacements, in
particular the greedy date rewrite); with all three present the rewrite is
that pipeline followed by the description replacement. -/
theorem claim10_desc_guard (st : StatRecord) (today doc : Chars) :
    (st.countries = none ∨ st.states = none ∨ st.cities = none →
      updateOverview st today doc = updateOverviewNoDesc st today doc) ∧
    (∀ c s ci : Nat, st.countries = some c → st.states = some s → st.cities = some ci →
      updateOverview st today doc =
        replFirst descMatcher (descRepl c s ci) (updateOverviewNoDesc st today doc)) := by
  constructor
  · intro h
    rw [updateOverview, updateOverviewNoDesc]
    by_cases ha : anyPresent st = true
    · rw [if_pos ha, if_pos ha]
      rcases hc : st.countries with _ | c
      · simp
      · rcases hs : st.states with _ | s2
        · simp
        · rcases hci : st.cities with _ | ci
          · simp
          · exfalso
            rw [hc, hs, hci] at h
            rcases h with h | h | h <;> cases h
    · rw [if_neg ha, if_neg ha]
  · intro c s ci hc hs hci
    have ha : anyPresent st = true := by
      rw [anyPresent, hc]
      simp
    rw [updateOverview, updateOverviewNoDesc, if_pos ha, if_pos ha, hc, hs, hci]

theorem claim10_desc_guard_witness :
    updateOverview cex10St ("x".toList) ("doc".toList) =
      updateOverviewNoDesc cex10St ("x".toList) ("doc".toList) ∧
    updateOverview ⟨none, none, some 251, some 5100, some 152000⟩ ("x".toList)
        ("doc".toList) =
      replFirst descMatcher (descRepl 251 5100 152000)
        (updateOverviewNoDesc ⟨none, none, some 251, some 5100, some 152000⟩
          ("x".toList) ("doc".toList)) :=
  ⟨(claim10_desc_guard cex10St ("x".toList) ("doc".toList)).1 (Or.inr (Or.inl rfl)),
   (claim10_desc_guard ⟨none, none, some 251, some 5100, some 152000⟩
      ("x".toList) ("doc".toList)).2 251 5100 152000 rfl rfl rfl⟩

theorem claim9_counterexample :
    anyPresent cex10St = true ∧
    updateOverviewOps cex10St ("d".toList) ("x".toList) =
      [FsOp.write ScriptPath.overview (updateOverview cex10St ("d".toList) ("x".toList))] ∧
    (∀ op ∈ updateOverviewOps cex10St ("d".toList) ("x".toList),
      op.isBackupCopy = false) := by
  refine ⟨rfl, rfl, ?_⟩
  intro op hop
  have h2 : updateOverviewOps cex10St ("d".toList) ("x".toList) =
      [FsOp.write ScriptPath.overview (updateOverview cex10St ("d".toList) ("x".toList))] :=
    rfl
  rw [h2, List.mem_singleton] at hop
  rw [hop]
  rfl

/-- C9 (amended): the changelog pipeline copies the previous changelog to its
`.backup` sibling before the write whenever the destination already exists
(and writes directly when it does not); the overview pipeline overwrites its
destination in place and never takes a backup. -/
theorem claim9_backup (releases : List Release) (st : StatRecord) (today doc : Chars) :
    syncChangelogOps true releases =
      [FsOp.copy ScriptPath.changelog ScriptPath.changelogBackup,
       FsOp.write ScriptPath.changelog (generateChangelogContent releases)] ∧
    syncChangelogOps false releases =
      [FsOp.write ScriptPath.changelog (generateChangelogContent releases)] ∧
    (∀ op ∈ updateOverviewOps st today doc, op.isBackupCopy = false) := by
  refine ⟨rfl, rfl, ?_⟩
  intro op hop
  rw [updateOverviewOps] at hop
  by_cases ha : anyPresent st = true
  · rw [if_pos ha, List.mem_singleton] at hop
    rw [hop]
    rfl
  · rw [if_neg ha] at hop
    cases hop

theorem claim9_backup_witness :
    syncChangelogOps true [] =
      [FsOp.copy ScriptPath.changelog ScriptPath.changelogBackup,
       FsOp.write ScriptPath.changelog (generateChangelogContent [])] ∧
    (∀ op ∈ updateOverviewOps cex10St ("d".toList) ("x".toList),
      op.isBackupCopy = false) :=
  ⟨(claim9_backup [] cex10St ("d".toList) ("x".toList)).1,
   (claim9_backup [] cex10St ("d".toList) ("x".toList)).2.2⟩

/-- C2 counterexample: on a document with two description-template lines the
overview rewrite is not idempotent — the first pass rewrites the first line
(whose replacement no longer matches the pattern), so the second pass
rewrites the second line. -/
theorem claim2_counterexample :
    updateOverview cex2St cex2Today (updateOverview cex2St cex2Today cex2Doc) ≠
      updateOverview cex2St cex2Today cex2Doc := by decide

theorem isPrefixOf_append_false : ∀ (lit a : Chars), refutes lit a = true →
    ∀ y : Chars, lit.isPrefixOf (a ++ y) = false := by
  intro lit
  induction lit with
  | nil =>
    intro a h y
    exfalso
    rw [refutes] at h
    simp at h
  | cons l ls ih =>
    intro a h y
    rcases a with _ | ⟨b, bs⟩
    · exfalso
      rw [refutes] at h
      simp at h
    · rw [List.cons_append, List.isPrefixOf_cons₂]
      by_cases hb : l = b
      · subst hb
        have h' : refutes ls bs = true := by
          rw [refutes, Bool.and_eq_true, Bool.not_eq_true', Bool.not_eq_true'] at h ⊢
          obtain ⟨h1, h2⟩ := h
          rw [List.isPrefixOf_cons₂] at h1 h2
          constructor
          · simpa using h1
          · simpa using h2
        rw [ih bs h' y]
        simp
      · simp [hb]

theorem stripLit_none_of_refutes {lit a : Chars} (h : refutes lit a = true) (y : Chars) :
    stripLit lit (a ++ y) = none := by
  have hf := isPrefixOf_append_false lit a h y
  rw [stripLit, if_neg]
  rw [hf]
  exact Bool.false_ne_true

theorem divMatcher_none_of_strip {c s : Chars}
    (h : stripLit (divPre c) s = none) : divMatcher c s = none := by
  rw [divMatcher, h]

theorem dateMatcher_none_of_strip {s : Chars}
    (h : stripLit datePre s = none) : dateMatcher s = none := by
  rw [dateMatcher, h]

theorem descMatcher_none_of_strip {s : Chars}
    (h : stripLit descPre s = none) : descMatcher s = none := by
  rw [descMatcher, h]

theorem noStart_of_refutes {m : Matcher} {lit : Chars}
    (hm : ∀ s : Chars, stripLit lit s = none → m s = none) (x : Chars)
    (hx : ∀ j, j < x.length → refutes lit (x.drop j) = true) : NoStart m x := by
  intro y j hj
  rw [List.drop_append_of_le_length (le_of_lt hj)]
  exact hm _ (stripLit_none_of_refutes (hx j hj) y)

theorem noStart_of_headChar {m : Matcher} {l₀ : Char} {lit' : Chars}
    (hm : ∀ s : Chars, stripLit (l₀ :: lit') s = none → m s = none) (x : Chars)
    (hx : ∀ c ∈ x, c ≠ l₀) : NoStart m x := by
  intro y j hj
  rw [List.drop_append_of_le_length (le_of_lt hj)]
  rcases hxd : x.drop j with _ | ⟨c, rest⟩
  · exfalso
    have hlen := congrArg List.length hxd
    rw [List.length_drop] at hlen
    simp at hlen
    omega
  · apply hm
    have hc : c ∈ x := by
      have hmem : c ∈ x.drop j := by
        rw [hxd]
        exact List.mem_cons_self _ _
      exact List.drop_subset j x hmem
    rw [stripLit, if_neg]
    intro hp
    rw [List.cons_append, List.isPrefixOf_cons₂, Bool.and_eq_true, beq_iff_eq] at hp
    exact hx c hc hp.1.symm

theorem noStart_append {m : Matcher} {x x' : Chars}
    (h1 : NoStart m x) (h2 : NoStart m x') : NoStart m (x ++ x') := by
  intro y j hj
  rw [List.length_append] at hj
  by_cases hlt : j < x.length
  · rw [List.append_assoc]
    exact h1 (x' ++ y) j hlt
  · push_neg at hlt
    have hd : ((x ++ x') ++ y).drop j = (x' ++ y).drop (j - x.length) := by
      rw [List.append_assoc, List.drop_append_eq_append_drop,
        List.drop_eq_nil_of_le hlt, List.nil_append]
    rw [hd]
    exact h2 y (j - x.length) (by omega)

theorem replFirst_skip {m : Matcher} {r : Chars} : ∀ {x : Chars} (y : Chars),
    NoStart m x → replFirst m r (x ++ y) = x ++ replFirst m r y := by
  intro x
  induction x with
  | nil => intro y _; rfl
  | cons c x' ih =>
    intro y h
    show replFirst m r (c :: (x' ++ y)) = _
    rw [replFirst]
    have h0 : m (c :: (x' ++ y)) = none := by
      have hh := h y 0 (Nat.succ_pos _)
      simpa using hh
    rw [h0]
    have h' : NoStart m x' := by
      intro y' j hj
      have hh := h y' (j + 1) (by simpa using Nat.succ_lt_succ hj)
      simpa using hh
    rw [ih y h']
    rfl

theorem replFirst_match {m : Matcher} {r s : Chars} {p : Chars × Chars}
    (h : m s = some p) : replFirst m r s = r ++ p.2 := by
  rcases s with _ | ⟨c, cs⟩ <;> rw [replFirst, h]

theorem replFirst_of_noMatch {m : Matcher} {r : Chars} : ∀ {s : Chars},
    NoMatch m s → replFirst m r s = s := by
  intro s
  induction s with
  | nil =>
    intro h
    rw [replFirst]
    have h0 := h 0
    rw [List.drop_nil] at h0
    rw [h0]
  | cons c cs ih =>
    intro h
    rw [replFirst]
    have h0 := h 0
    rw [List.drop_zero] at h0
    rw [h0]
    have h' : NoMatch m cs := fun j => by simpa using h (j + 1)
    rw [ih h']

theorem noMatch_append {m : Matcher} {x y : Chars}
    (hx : NoStart m x) (hy : NoMatch m y) : NoMatch m (x ++ y) := by
  intro j
  by_cases hlt : j < x.length
  · exact hx y j hlt
  · push_neg at hlt
    rw [List.drop_append_eq_append_drop, List.drop_eq_nil_of_le hlt, List.nil_append]
    exact hy (j - x.length)

theorem noMatch_nil {m : Matcher} (h : m [] = none) : NoMatch m [] := by
  intro j
  rw [List.drop_nil]
  exact h

theorem noMatch_cons {m : Matcher} {c : Char} {cs : Chars}
    (h0 : m (c :: cs) = none) (h1 : NoMatch m cs) : NoMatch m (c :: cs) := by
  intro j
  rcases j with _ | j
  · simpa using h0
  · simpa using h1 j

/- ### Numeral and digit-string lemmas -/
theorem isDigit_ofNat_lt10 {d : Nat} (h : d < 10) :
    (Char.ofNat (48 + d)).isDigit = true := by
  interval_cases d <;> decide

theorem natCharsF_digits : ∀ (f n : Nat), ∀ c ∈ natCharsF f n, c.isDigit = true := by
  intro f
  induction f with
  | zero => intro n c hc; cases hc
  | succ f ih =>
    intro n c hc
    rw [natCharsF] at hc
    by_cases h : n < 10
    · rw [if_pos h, List.mem_singleton] at hc
      rw [hc]
      exact isDigit_ofNat_lt10 h
    · rw [if_neg h] at hc
      rcases List.mem_append.mp hc with hc | hc
      · exact ih _ c hc
      · rw [List.mem_singleton] at hc
        rw [hc]
        exact isDigit_ofNat_lt10 (Nat.mod_lt _ (by omega))

theorem natChars_digits (n : Nat) : ∀ c ∈ natChars n, c.isDigit = true :=
  natCharsF_digits (n + 1) n

theorem natChars_ne_nil (n : Nat) : natChars n ≠ [] := by
  rw [natChars, natCharsF]
  by_cases h : n < 10
  · rw [if_pos h]
    exact List.cons_ne_nil _ _
  · rw [if_neg h]
    intro hc
    have hlen := congrArg List.length hc
    simp at hlen

theorem group3F_subset : ∀ (f : Nat) (ds : Chars), ∀ c ∈ group3F f ds,
    c ∈ ds ∨ c = ',' := by
  intro f
  induction f with
  | zero => intro ds c hc; exact Or.inl hc
  | succ f ih =>
    intro ds c hc
    rw [group3F] at hc
    by_cases h : ds.length ≤ 3
    · rw [if_pos h] at hc
      exact Or.inl hc
    · rw [if_neg h] at hc
      rcases List.mem_append.mp hc with hc | hc
      · exact Or.inl (List.take_subset _ _ hc)
      · rw [List.mem_cons] at hc
        rcases hc with hc | hc
        · exact Or.inr hc
        · rcases ih _ c hc with h2 | h2
          · exact Or.inl (List.drop_subset _ _ h2)
          · exact Or.inr h2

theorem formatNumber_chars (n : Nat) : ∀ c ∈ formatNumber n,
    c.isDigit = true ∨ c = ',' := by
  intro c hc
  rw [formatNumber, List.mem_reverse] at hc
  rcases group3F_subset _ _ c hc with h | h
  · rw [List.mem_reverse] at h
    exact Or.inl (natChars_digits n c h)
  · exact Or.inr h

theorem digit_ne {c : Char} (h : c.isDigit = true) :
    c ≠ '<' ∧ c ≠ 'L' ∧ c ≠ 'd' ∧ c ≠ ',' ∧ c ≠ '+' := by
  refine ⟨?_, ?_, ?_, ?_, ?_⟩ <;>
    · intro he
      rw [he] at h
      exact absurd h (by decide)

theorem gsJoin_nil : gsJoin [] = [] := rfl

theorem gsJoin_cons (g : Chars) (gs : List Chars) :
    gsJoin (g :: gs) = ',' :: (g ++ gsJoin gs) := by
  simp [gsJoin]

theorem gsJoin_append (gs1 gs2 : List Chars) :
    gsJoin (gs1 ++ gs2) = gsJoin gs1 ++ gsJoin gs2 := by
  simp [gsJoin]

theorem group3F_shape : ∀ (f : Nat) (ds : Chars), ds ≠ [] →
    (∀ c ∈ ds, c.isDigit = true) →
    ∃ (g : Chars) (gs : List Chars),
      (group3F f ds).reverse = g ++ gsJoin gs ∧ NumShape g gs := by
  intro f
  induction f with
  | zero =>
    intro ds hne hd
    refine ⟨ds.reverse, [], by simp [gsJoin, group3F], ⟨⟨by simpa using hne,
      fun c hc => hd c (List.mem_reverse.mp hc)⟩, by simp⟩⟩
  | succ f ih =>
    intro ds hne hd
    rw [group3F]
    by_cases h : ds.length ≤ 3
    · rw [if_pos h]
      refine ⟨ds.reverse, [], by simp [gsJoin], ⟨⟨by simpa using hne,
        fun c hc => hd c (List.mem_reverse.mp hc)⟩, by simp⟩⟩
    · rw [if_neg h]
      push_neg at h
      have hne3 : ds.drop 3 ≠ [] := by
        intro hc
        have hlen := congrArg List.length hc
        rw [List.length_drop] at hlen
        simp at hlen
        omega
      have hd3 : ∀ c ∈ ds.drop 3, c.isDigit = true :=
        fun c hc => hd c (List.drop_subset _ _ hc)
      obtain ⟨g, gs, heq, hg, hgs⟩ := ih (ds.drop 3) hne3 hd3
      refine ⟨g, gs ++ [(ds.take 3).reverse], ?_, hg, ?_⟩
      · rw [List.reverse_append, List.reverse_cons, gsJoin_append, heq]
        simp [gsJoin, List.append_assoc]
      · intro x hx
        rcases List.mem_append.mp hx with hx | hx
        · exact hgs x hx
        · rw [List.mem_singleton] at hx
          subst hx
          constructor
          · intro hc
            have hlen := congrArg List.length hc
            rw [List.length_reverse, List.length_take, List.length_nil] at hlen
            omega
          · intro c hc
            exact hd c (List.take_subset _ _ (List.mem_reverse.mp hc))

theorem formatNumber_shape (n : Nat) :
    ∃ (g : Chars) (gs : List Chars), formatNumber n = g ++ gsJoin gs ∧ NumShape g gs := by
  rw [formatNumber]
  have hne : (natChars n).reverse ≠ [] := by simpa using natChars_ne_nil n
  have hd : ∀ c ∈ (natChars n).reverse, c.isDigit = true :=
    fun c hc => natChars_digits n c (List.mem_reverse.mp hc)
  obtain ⟨g, gs, heq, hs⟩ := group3F_shape (natChars n).length (natChars n).reverse hne hd
  exact ⟨g, gs, heq, hs⟩

theorem takeWhile_all_stop {p : Char → Bool} {a y : Chars} (ha : ∀ c ∈ a, p c = true)
    (hy : ∀ c, y.head? = some c → p c = false) :
    (a ++ y).takeWhile p = a ∧ (a ++ y).dropWhile p = y := by
  constructor
  · rw [takeWhile_append_of_all ha]
    rcases y with _ | ⟨c, ys⟩
    · simp
    · rw [List.takeWhile_cons, if_neg (by rw [hy c rfl]; exact Bool.false_ne_true)]
      simp
  · rw [dropWhile_append_of_all ha]
    rcases y with _ | ⟨c, ys⟩
    · rfl
    · rw [List.dropWhile_cons, if_neg (by rw [hy c rfl]; exact Bool.false_ne_true)]

theorem digits1_append {g : Chars} (hgne : g ≠ []) (hgd : ∀ c ∈ g, c.isDigit = true)
    {y : Chars} (hy : ∀ c, y.head? = some c → c.isDigit = false) :
    digits1 (g ++ y) = some (g, y) := by
  rcases g with _ | ⟨d, g'⟩
  · exact absurd rfl hgne
  · rw [List.cons_append, digits1]
    have hd : d.isDigit = true := hgd d (List.mem_cons_self _ _)
    rw [if_pos hd]
    have hg' : ∀ c ∈ g' ++ y, True := fun _ _ => trivial
    have hga : ∀ c ∈ (d :: g' : Chars), Char.isDigit c = true := hgd
    obtain ⟨ht, hdr⟩ := takeWhile_all_stop (p := Char.isDigit) hga hy
    rw [List.cons_append] at ht hdr
    rw [ht, hdr]

theorem commaGroupsF_gsJoin : ∀ (gs : List Chars) (fuel : Nat) (y : Chars),
    (gsJoin gs).length ≤ fuel →
    (∀ x ∈ gs, x ≠ [] ∧ ∀ c ∈ x, c.isDigit = true) →
    (∀ c, y.head? = some c → c.isDigit = false ∧ c ≠ ',') →
    commaGroupsF fuel (gsJoin gs ++ y) = (gsJoin gs, y) := by
  intro gs
  induction gs with
  | nil =>
    intro fuel y _ _ hy
    rw [gsJoin_nil, List.nil_append]
    rcases fuel with _ | f
    · rfl
    · rcases y with _ | ⟨c, ys⟩
      · rfl
      · rw [commaGroupsF, if_neg ((hy c rfl).2)]
  | cons g gs' ih =>
    intro fuel y hf hgs hy
    rw [gsJoin_cons] at hf ⊢
    rcases fuel with _ | f
    · exfalso
      rw [List.length_cons] at hf
      omega
    · rw [List.cons_append, commaGroupsF, if_pos rfl]
      have hg := hgs g (List.mem_cons_self _ _)
      have hhead : ∀ c, (gsJoin gs' ++ y).head? = some c → c.isDigit = false := by
        intro c hc
        rcases gs' with _ | ⟨g2, gs''⟩
        · rw [gsJoin_nil, List.nil_append] at hc
          exact (hy c hc).1
        · rw [gsJoin_cons, List.cons_append, List.head?_cons] at hc
          injection hc with hc
          rw [← hc]
          decide
      have hd1 : digits1 ((g ++ gsJoin gs') ++ y) = some (g, gsJoin gs' ++ y) := by
        rw [List.append_assoc]
        exact digits1_append hg.1 hg.2 hhead
      rw [hd1]
      have hf' : (gsJoin gs').length ≤ f := by
        rw [List.length_cons, List.length_append] at hf
        omega
      have hgs' : ∀ x ∈ gs', x ≠ [] ∧ ∀ c ∈ x, c.isDigit = true :=
        fun x hx => hgs x (List.mem_cons_of_mem _ hx)
      have hih := ih f y hf' hgs' hy
      show (',' :: (g ++ (commaGroupsF f (gsJoin gs' ++ y)).1),
          (commaGroupsF f (gsJoin gs' ++ y)).2) = (',' :: (g ++ gsJoin gs'), y)
      rw [hih]

theorem numeralParse_gsJoin {g : Chars} {gs : List Chars} (hs : NumShape g gs)
    {y : Chars} (hy : ∀ c, y.head? = some c → c.isDigit = false ∧ c ≠ ',') :
    numeralParse ((g ++ gsJoin gs) ++ y) = some (g ++ gsJoin gs, y) := by
  obtain ⟨hg, hgs⟩ := hs
  have hhead : ∀ c, (gsJoin gs ++ y).head? = some c → c.isDigit = false := by
    intro c hc
    rcases gs with _ | ⟨g2, gs'⟩
    · rw [gsJoin_nil, List.nil_append] at hc
      exact (hy c hc).1
    · rw [gsJoin_cons, List.cons_append, List.head?_cons] at hc
      injection hc with hc
      rw [← hc]
      decide
  rw [List.append_assoc, numeralParse, digits1_append hg.1 hg.2 hhead]
  show some (g ++ (commaGroupsF (gsJoin gs ++ y).length (gsJoin gs ++ y)).1,
      (commaGroupsF (gsJoin gs ++ y).length (gsJoin gs ++ y)).2) =
    some (g ++ gsJoin gs, y)
  rw [commaGroupsF_gsJoin gs (gsJoin gs ++ y).length y
    (by rw [List.length_append]; omega) hgs hy]

theorem isPrefixOf_self_append (lit y : Chars) : lit.isPrefixOf (lit ++ y) = true :=
  isPrefixOf_true_iff.mpr ⟨y, rfl⟩

theorem stripLit_self (lit y : Chars) : stripLit lit (lit ++ y) = some y := by
  rw [stripLit, if_pos (isPrefixOf_self_append lit y), List.drop_left]

theorem divMatcher_at (color : Chars) (n : Nat) (y : Chars) :
    divMatcher color (divPre color ++ (formatNumber n ++ (divSuf ++ y))) =
      some (divPre color ++ formatNumber n ++ divSuf, y) := by
  rw [divMatcher, stripLit_self]
  obtain ⟨g, gs, heq, hs⟩ := formatNumber_shape n
  have hy : ∀ c, (divSuf ++ y).head? = some c → c.isDigit = false ∧ c ≠ ',' := by
    intro c hc
    have hh : (divSuf ++ y).head? = some '<' := rfl
    rw [hh] at hc
    injection hc with hc
    rw [← hc]
    exact ⟨by decide, by decide⟩
  have hnp : numeralParse ((g ++ gsJoin gs) ++ (divSuf ++ y)) =
      some (g ++ gsJoin gs, divSuf ++ y) := numeralParse_gsJoin hs hy
  rw [heq]
  simp only [hnp, stripLit_self]

theorem dateMatcher_at (q y : Chars) (hne : q ≠ []) (hq : ∀ c ∈ q, c ≠ '<') :
    dateMatcher (datePre ++ (q ++ '<' :: y)) = some (datePre ++ q, '<' :: y) := by
  rw [dateMatcher, stripLit_self]
  have hqt : ∀ c ∈ q, (!(c == '<')) = true := by
    intro c hc
    simpa using hq c hc
  have hy : ∀ c, (('<' :: y) : Chars).head? = some c → (!(c == '<')) = false := by
    intro c hc
    injection hc with hc
    rw [← hc]
    decide
  obtain ⟨ht, hd⟩ := takeWhile_all_stop hqt hy
  show (if (List.takeWhile (fun c => !(c == '<')) (q ++ '<' :: y)).isEmpty then none
    else some (datePre ++ List.takeWhile (fun c => !(c == '<')) (q ++ '<' :: y),
      List.dropWhile (fun c => !(c == '<')) (q ++ '<' :: y))) =
    some (datePre ++ q, '<' :: y)
  rw [ht, hd, if_neg]
  simp [hne]

theorem digits1_natChars (n : Nat) {y : Chars} (c0 : Char) (hy : y.head? = some c0)
    (hc0 : c0.isDigit = false) : digits1 (natChars n ++ y) = some (natChars n, y) := by
  refine digits1_append (natChars_ne_nil n) (natChars_digits n) ?_
  intro c hc
  rw [hy] at hc
  injection hc with hc
  rw [← hc]
  exact hc0

theorem descMatcher_at_line (a b c : Nat) (y : Chars) :
    descMatcher (stdDescLine a b c ++ y) = some (stdDescLine a b c, y) := by
  have h1 : digits1 (natChars a ++ (descMid1 ++ (natChars b ++ (descMid2 ++
      (natChars c ++ (descMid3 ++ y)))))) =
      some (natChars a, descMid1 ++ (natChars b ++ (descMid2 ++
        (natChars c ++ (descMid3 ++ y))))) :=
    digits1_natChars a '+' rfl (by decide)
  have h2 : digits1 (natChars b ++ (descMid2 ++ (natChars c ++ (descMid3 ++ y)))) =
      some (natChars b, descMid2 ++ (natChars c ++ (descMid3 ++ y))) :=
    digits1_natChars b '+' rfl (by decide)
  have h3 : digits1 (natChars c ++ (descMid3 ++ y)) =
      some (natChars c, descMid3 ++ y) :=
    digits1_natChars c '+' rfl (by decide)
  rw [stdDescLine]
  simp only [List.append_assoc]
  rw [descMatcher]
  simp only [stripLit_self, h1, h2, h3]
  simp [stdDescLine, List.append_assoc]

theorem descMatcher_none_at_repl (c s ci : Nat) (y : Chars) :
    descMatcher (descRepl c s ci ++ y) = none := by
  have h1 : digits1 (natChars (c / 50 * 50) ++ (descMid1 ++
      (natChars (s / 500 * 500 / 1000) ++ (descReplMid2 ++
        (natChars (ci / 1000 * 1000 / 1000) ++ (descReplMid3 ++ y)))))) =
      some (natChars (c / 50 * 50), descMid1 ++ (natChars (s / 500 * 500 / 1000) ++
        (descReplMid2 ++ (natChars (ci / 1000 * 1000 / 1000) ++ (descReplMid3 ++ y))))) :=
    digits1_natChars _ '+' rfl (by decide)
  have h2 : digits1 (natChars (s / 500 * 500 / 1000) ++ (descReplMid2 ++
      (natChars (ci / 1000 * 1000 / 1000) ++ (descReplMid3 ++ y)))) =
      some (natChars (s / 500 * 500 / 1000), descReplMid2 ++
        (natChars (ci / 1000 * 1000 / 1000) ++ (descReplMid3 ++ y))) :=
    digits1_natChars _ 'k' rfl (by decide)
  have h3 : stripLit descMid2 (descReplMid2 ++
      (natChars (ci / 1000 * 1000 / 1000) ++ (descReplMid3 ++ y))) = none :=
    stripLit_none_of_refutes (by decide) _
  rw [descRepl]
  simp only [List.append_assoc]
  rw [descMatcher]
  simp only [stripLit_self, h1, h2, h3]

theorem tailC_eq : tailC = '<' :: "/p>".toList := rfl

theorem divPre_cons (color : Chars) : divPre color =
    '<' :: ("div className=\"text-2xl font-bold text-".toList ++ color ++
      "-600\">".toList) := rfl

theorem datePre_cons : datePre = 'L' :: "ast Updated: ".toList := rfl

theorem descPre_cons : descPre =
    'd' :: "escription: \"Complete geographical database with ".toList := rfl

theorem noStart_div_free (color x : Chars) (hx : ∀ ch ∈ x, ch ≠ '<') :
    NoStart (divMatcher color) x := by
  have hm : ∀ s : Chars,
      stripLit ('<' :: ("div className=\"text-2xl font-bold text-".toList ++ color ++
        "-600\">".toList)) s = none → divMatcher color s = none := by
    intro s h
    apply divMatcher_none_of_strip
    rw [divPre_cons]
    exact h
  exact noStart_of_headChar hm x hx

theorem noStart_date_free (x : Chars) (hx : ∀ ch ∈ x, ch ≠ 'L') :
    NoStart dateMatcher x := by
  have hm : ∀ s : Chars, stripLit ('L' :: "ast Updated: ".toList) s = none →
      dateMatcher s = none := by
    intro s h
    apply dateMatcher_none_of_strip
    rw [datePre_cons]
    exact h
  exact noStart_of_headChar hm x hx

theorem noStart_desc_free (x : Chars) (hx : ∀ ch ∈ x, ch ≠ 'd') :
    NoStart descMatcher x := by
  have hm : ∀ s : Chars,
      stripLit ('d' :: "escription: \"Complete geographical database with ".toList) s =
        none → descMatcher s = none := by
    intro s h
    apply descMatcher_none_of_strip
    rw [descPre_cons]
    exact h
  exact noStart_of_headChar hm x hx

theorem noStart_div_refutes (color x : Chars)
    (hx : ∀ j, j < x.length → refutes (divPre color) (x.drop j) = true) :
    NoStart (divMatcher color) x :=
  noStart_of_refutes (fun _ h => divMatcher_none_of_strip h) x hx

theorem noStart_date_refutes (x : Chars)
    (hx : ∀ j, j < x.length → refutes datePre (x.drop j) = true) :
    NoStart dateMatcher x :=
  noStart_of_refutes (fun _ h => dateMatcher_none_of_strip h) x hx

theorem noStart_desc_refutes (x : Chars)
    (hx : ∀ j, j < x.length → refutes descPre (x.drop j) = true) :
    NoStart descMatcher x :=
  noStart_of_refutes (fun _ h => descMatcher_none_of_strip h) x hx

theorem noMatch_of_upto {m : Matcher} {s : Chars}
    (h : ∀ j, j ≤ s.length → m (s.drop j) = none) : NoMatch m s := by
  intro j
  by_cases hj : j ≤ s.length
  · exact h j hj
  · push_neg at hj
    rw [List.drop_eq_nil_of_le (le_of_lt hj)]
    have h0 := h s.length le_rfl
    rw [List.drop_length] at h0
    exact h0

theorem isSome_false_eq_none {α : Type} {o : Option α} (h : o.isSome = false) :
    o = none := by
  rcases o with _ | n
  · rfl
  · simp at h

theorem noStart_div_formatNumber (color : Chars) (n : Nat) :
    NoStart (divMatcher color) (formatNumber n) := by
  apply noStart_div_free
  intro ch hc
  rcases formatNumber_chars n ch hc with h | h
  · exact (digit_ne h).1
  · rw [h]
    decide

theorem noStart_date_formatNumber (n : Nat) : NoStart dateMatcher (formatNumber n) := by
  apply noStart_date_free
  intro ch hc
  rcases formatNumber_chars n ch hc with h | h
  · exact (digit_ne h).2.1
  · rw [h]
    decide

theorem noStart_desc_formatNumber (n : Nat) : NoStart descMatcher (formatNumber n) := by
  apply noStart_desc_free
  intro ch hc
  rcases formatNumber_chars n ch hc with h | h
  · exact (digit_ne h).2.2.1
  · rw [h]
    decide

theorem noStart_desc_natChars (n : Nat) : NoStart descMatcher (natChars n) :=
  noStart_desc_free _ (fun ch hc => (digit_ne (natChars_digits n ch hc)).2.2.1)

theorem noStart_div_stdDiv (color color' : Chars) (n : Nat)
    (h1 : ∀ j, j < (divPre color').length → refutes (divPre color)
      ((divPre color').drop j) = true)
    (h2 : ∀ j, j < divSuf.length → refutes (divPre color) (divSuf.drop j) = true) :
    NoStart (divMatcher color) (stdDiv color' n) := by
  rw [stdDiv]
  exact noStart_append (noStart_append (noStart_div_refutes _ _ h1)
    (noStart_div_formatNumber color n)) (noStart_div_refutes _ _ h2)

theorem noStart_date_stdDiv (color : Chars) (n : Nat)
    (h1 : ∀ ch ∈ divPre color, ch ≠ 'L') :
    NoStart dateMatcher (stdDiv color n) := by
  rw [stdDiv]
  exact noStart_append (noStart_append (noStart_date_free _ h1)
    (noStart_date_formatNumber n)) (noStart_date_free _ (by decide))

theorem noStart_desc_stdDiv (color : Chars) (n : Nat)
    (h1 : ∀ j, j < (divPre color).length → refutes descPre
      ((divPre color).drop j) = true) :
    NoStart descMatcher (stdDiv color n) := by
  rw [stdDiv]
  exact noStart_append (noStart_append (noStart_desc_refutes _ h1)
    (noStart_desc_formatNumber n)) (noStart_desc_refutes _ (by decide))

theorem stdDescLine_no_anchor (a b c : Nat) :
    ∀ ch ∈ stdDescLine a b c, ch ≠ '<' ∧ ch ≠ 'L' := by
  intro ch hch
  rw [stdDescLine] at hch
  simp only [List.mem_append] at hch
  have hcon : ∀ x ∈ descPre ++ descMid1 ++ descMid2 ++ descMid3,
      x ≠ '<' ∧ x ≠ 'L' := by decide
  rcases hch with h | h | h | h | h | h | h
  · exact hcon ch (by simp [List.mem_append, h])
  · exact ⟨(digit_ne (natChars_digits a ch h)).1, (digit_ne (natChars_digits a ch h)).2.1⟩
  · exact hcon ch (by simp [List.mem_append, h])
  · exact ⟨(digit_ne (natChars_digits b ch h)).1, (digit_ne (natChars_digits b ch h)).2.1⟩
  · exact hcon ch (by simp [List.mem_append, h])
  · exact ⟨(digit_ne (natChars_digits c ch h)).1, (digit_ne (natChars_digits c ch h)).2.1⟩
  · exact hcon ch (by simp [List.mem_append, h])

theorem descRepl_no_anchor (c3 s4 ci5 : Nat) :
    ∀ ch ∈ descRepl c3 s4 ci5, ch ≠ '<' ∧ ch ≠ 'L' := by
  intro ch hch
  rw [descRepl] at hch
  simp only [List.mem_append] at hch
  have hcon : ∀ x ∈ descPre ++ descMid1 ++ descReplMid2 ++ descReplMid3,
      x ≠ '<' ∧ x ≠ 'L' := by decide
  rcases hch with h | h | h | h | h | h | h
  · exact hcon ch (by simp [List.mem_append, h])
  · exact ⟨(digit_ne (natChars_digits _ ch h)).1, (digit_ne (natChars_digits _ ch h)).2.1⟩
  · exact hcon ch (by simp [List.mem_append, h])
  · exact ⟨(digit_ne (natChars_digits _ ch h)).1, (digit_ne (natChars_digits _ ch h)).2.1⟩
  · exact hcon ch (by simp [List.mem_append, h])
  · exact ⟨(digit_ne (natChars_digits _ ch h)).1, (digit_ne (natChars_digits _ ch h)).2.1⟩
  · exact hcon ch (by simp [List.mem_append, h])

theorem applyStat_std (f : Option Nat) (color : Chars) (v : Nat) (X Y : Chars)
    (hX : NoStart (divMatcher color) X) :
    applyStat f color (X ++ (stdDiv color v ++ Y)) =
      X ++ (stdDiv color (f.getD v) ++ Y) := by
  rcases f with _ | n
  · rfl
  · rw [applyStat]
    rw [replFirst_skip _ hX]
    have hm : divMatcher color (stdDiv color v ++ Y) = some (stdDiv color v, Y) := by
      have h1 := divMatcher_at color v Y
      rw [stdDiv]
      simp only [List.append_assoc] at h1 ⊢
      exact h1
    rw [replFirst_match hm]
    simp [stdDiv, Option.getD_some, List.append_assoc]

theorem applyStat1 (f : Option Nat) (H D : Chars) (v1 v2 v3 v4 v5 : Nat) (q : Chars)
    (hH : NoStart (divMatcher blueC) H) (hD : ∀ ch ∈ D, ch ≠ '<') :
    applyStat f blueC (H ++ (D ++ divsSeg v1 v2 v3 v4 v5 q)) =
      H ++ (D ++ divsSeg (f.getD v1) v2 v3 v4 v5 q) := by
  have hX : NoStart (divMatcher blueC) (H ++ D) :=
    noStart_append hH (noStart_div_free _ _ hD)
  have e : H ++ (D ++ divsSeg v1 v2 v3 v4 v5 q) =
      (H ++ D) ++ (stdDiv blueC v1 ++ (stdDiv greenC v2 ++ (stdDiv purpleC v3 ++
        (stdDiv orangeC v4 ++ (stdDiv redC v5 ++ dateSeg q))))) := by
    rw [divsSeg]
    exact (List.append_assoc H D _).symm
  rw [e, applyStat_std f blueC v1 _ _ hX, divsSeg]
  simp only [List.append_assoc]

theorem applyStat2 (f : Option Nat) (H D : Chars) (v1 v2 v3 v4 v5 : Nat) (q : Chars)
    (hH : NoStart (divMatcher greenC) H) (hD : ∀ ch ∈ D, ch ≠ '<') :
    applyStat f greenC (H ++ (D ++ divsSeg v1 v2 v3 v4 v5 q)) =
      H ++ (D ++ divsSeg v1 (f.getD v2) v3 v4 v5 q) := by
  have hX : NoStart (divMatcher greenC) ((H ++ D) ++ stdDiv blueC v1) :=
    noStart_append (noStart_append hH (noStart_div_free _ _ hD))
      (noStart_div_stdDiv greenC blueC v1 (by decide) (by decide))
  have e : H ++ (D ++ divsSeg v1 v2 v3 v4 v5 q) =
      ((H ++ D) ++ stdDiv blueC v1) ++ (stdDiv greenC v2 ++ (stdDiv purpleC v3 ++
        (stdDiv orangeC v4 ++ (stdDiv redC v5 ++ dateSeg q)))) := by
    rw [divsSeg]
    simp only [List.append_assoc]
  rw [e, applyStat_std f greenC v2 _ _ hX, divsSeg]
  simp only [List.append_assoc]

theorem applyStat3 (f : Option Nat) (H D : Chars) (v1 v2 v3 v4 v5 : Nat) (q : Chars)
    (hH : NoStart (divMatcher purpleC) H) (hD : ∀ ch ∈ D, ch ≠ '<') :
    applyStat f purpleC (H ++ (D ++ divsSeg v1 v2 v3 v4 v5 q)) =
      H ++ (D ++ divsSeg v1 v2 (f.getD v3) v4 v5 q) := by
  have hX : NoStart (divMatcher purpleC)
      (((H ++ D) ++ stdDiv blueC v1) ++ stdDiv greenC v2) :=
    noStart_append (noStart_append (noStart_append hH (noStart_div_free _ _ hD))
      (noStart_div_stdDiv purpleC blueC v1 (by decide) (by decide)))
      (noStart_div_stdDiv purpleC greenC v2 (by decide) (by decide))
  have e : H ++ (D ++ divsSeg v1 v2 v3 v4 v5 q) =
      (((H ++ D) ++ stdDiv blueC v1) ++ stdDiv greenC v2) ++ (stdDiv purpleC v3 ++
        (stdDiv orangeC v4 ++ (stdDiv redC v5 ++ dateSeg q))) := by
    rw [divsSeg]
    simp only [List.append_assoc]
  rw [e, applyStat_std f purpleC v3 _ _ hX, divsSeg]
  simp only [List.append_assoc]

theorem applyStat4 (f : Option Nat) (H D : Chars) (v1 v2 v3 v4 v5 : Nat) (q : Chars)
    (hH : NoStart (divMatcher orangeC) H) (hD : ∀ ch ∈ D, ch ≠ '<') :
    applyStat f orangeC (H ++ (D ++ divsSeg v1 v2 v3 v4 v5 q)) =
      H ++ (D ++ divsSeg v1 v2 v3 (f.getD v4) v5 q) := by
  have hX : NoStart (divMatcher orangeC)
      ((((H ++ D) ++ stdDiv blueC v1) ++ stdDiv greenC v2) ++ stdDiv purpleC v3) :=
    noStart_append (noStart_append (noStart_append (noStart_append hH
      (noStart_div_free _ _ hD))
      (noStart_div_stdDiv orangeC blueC v1 (by decide) (by decide)))
      (noStart_div_stdDiv orangeC greenC v2 (by decide) (by decide)))
      (noStart_div_stdDiv orangeC purpleC v3 (by decide) (by decide))
  have e : H ++ (D ++ divsSeg v1 v2 v3 v4 v5 q) =
      ((((H ++ D) ++ stdDiv blueC v1) ++ stdDiv greenC v2) ++ stdDiv purpleC v3) ++
        (stdDiv orangeC v4 ++ (stdDiv redC v5 ++ dateSeg q)) := by
    rw [divsSeg]
    simp only [List.append_assoc]
  rw [e, applyStat_std f orangeC v4 _ _ hX, divsSeg]
  simp only [List.append_assoc]

theorem applyStat5 (f : Option Nat) (H D : Chars) (v1 v2 v3 v4 v5 : Nat) (q : Chars)
    (hH : NoStart (divMatcher redC) H) (hD : ∀ ch ∈ D, ch ≠ '<') :
    applyStat f redC (H ++ (D ++ divsSeg v1 v2 v3 v4 v5 q)) =
      H ++ (D ++ divsSeg v1 v2 v3 v4 (f.getD v5) q) := by
  have hX : NoStart (divMatcher redC)
      (((((H ++ D) ++ stdDiv blueC v1) ++ stdDiv greenC v2) ++ stdDiv purpleC v3) ++
        stdDiv orangeC v4) :=
    noStart_append (noStart_append (noStart_append (noStart_append (noStart_append hH
      (noStart_div_free _ _ hD))
      (noStart_div_stdDiv redC blueC v1 (by decide) (by decide)))
      (noStart_div_stdDiv redC greenC v2 (by decide) (by decide)))
      (noStart_div_stdDiv redC purpleC v3 (by decide) (by decide)))
      (noStart_div_stdDiv redC orangeC v4 (by decide) (by decide))
  have e : H ++ (D ++ divsSeg v1 v2 v3 v4 v5 q) =
      (((((H ++ D) ++ stdDiv blueC v1) ++ stdDiv greenC v2) ++ stdDiv purpleC v3) ++
        stdDiv orangeC v4) ++ (stdDiv redC v5 ++ dateSeg q) := by
    rw [divsSeg]
    simp only [List.append_assoc]
  rw [e, applyStat_std f redC v5 _ _ hX, divsSeg]
  simp only [List.append_assoc]

theorem dateStep (H D : Chars) (w1 w2 w3 w4 w5 : Nat) (q t : Chars)
    (hH : NoStart dateMatcher H) (hD : ∀ ch ∈ D, ch ≠ 'L')
    (hq : ∀ ch ∈ q, ch ≠ '<') (hqne : q ≠ []) :
    replFirst dateMatcher (datePre ++ t) (H ++ (D ++ divsSeg w1 w2 w3 w4 w5 q)) =
      H ++ (D ++ divsSeg w1 w2 w3 w4 w5 t) := by
  have hX : NoStart dateMatcher
      ((((((H ++ D) ++ stdDiv blueC w1) ++ stdDiv greenC w2) ++ stdDiv purpleC w3) ++
        stdDiv orangeC w4) ++ stdDiv redC w5) :=
    noStart_append (noStart_append (noStart_append (noStart_append (noStart_append
      (noStart_append hH (noStart_date_free _ hD))
      (noStart_date_stdDiv blueC w1 (by decide)))
      (noStart_date_stdDiv greenC w2 (by decide)))
      (noStart_date_stdDiv purpleC w3 (by decide)))
      (noStart_date_stdDiv orangeC w4 (by decide)))
      (noStart_date_stdDiv redC w5 (by decide))
  have e : H ++ (D ++ divsSeg w1 w2 w3 w4 w5 q) =
      ((((((H ++ D) ++ stdDiv blueC w1) ++ stdDiv greenC w2) ++ stdDiv purpleC w3) ++
        stdDiv orangeC w4) ++ stdDiv redC w5) ++
        (datePre ++ (q ++ ('<' :: "/p>".toList))) := by
    rw [divsSeg, dateSeg]
    simp only [tailC_eq, List.append_assoc]
  rw [e, replFirst_skip _ hX]
  have hm : dateMatcher (datePre ++ (q ++ ('<' :: "/p>".toList))) =
      some (datePre ++ q, '<' :: "/p>".toList) := dateMatcher_at q _ hqne hq
  rw [replFirst_match hm]
  rw [divsSeg, dateSeg]
  simp only [tailC_eq, List.append_assoc]

theorem noStart_div_descLine (color : Chars) (a b c : Nat) :
    NoStart (divMatcher color) (stdDescLine a b c) :=
  noStart_div_free _ _ (fun ch h => (stdDescLine_no_anchor a b c ch h).1)

theorem noStart_date_descLine (a b c : Nat) : NoStart dateMatcher (stdDescLine a b c) :=
  noStart_date_free _ (fun ch h => (stdDescLine_no_anchor a b c ch h).2)

theorem noStart_div_descRepl (color : Chars) (c3 s4 ci5 : Nat) :
    NoStart (divMatcher color) (descRepl c3 s4 ci5) :=
  noStart_div_free _ _ (fun ch h => (descRepl_no_anchor c3 s4 ci5 ch h).1)

theorem noStart_date_descRepl (c3 s4 ci5 : Nat) :
    NoStart dateMatcher (descRepl c3 s4 ci5) :=
  noStart_date_free _ (fun ch h => (descRepl_no_anchor c3 s4 ci5 ch h).2)

theorem coreSteps (st : StatRecord) (v1 v2 v3 v4 v5 : Nat) (q t H D : Chars)
    (h1 : NoStart (divMatcher blueC) H) (h2 : NoStart (divMatcher greenC) H)
    (h3 : NoStart (divMatcher purpleC) H) (h4 : NoStart (divMatcher orangeC) H)
    (h5 : NoStart (divMatcher redC) H) (hdt : NoStart dateMatcher H)
    (hD : FreeText D) (hq : ∀ ch ∈ q, ch ≠ '<') (hqne : q ≠ []) :
    replFirst dateMatcher (datePre ++ t)
      (applyStat st.cities redC (applyStat st.states orangeC (applyStat st.countries
        purpleC (applyStat st.subregions greenC (applyStat st.regions blueC
          (H ++ (D ++ divsSeg v1 v2 v3 v4 v5 q))))))) =
      H ++ (D ++ divsSeg (st.regions.getD v1) (st.subregions.getD v2)
        (st.countries.getD v3) (st.states.getD v4) (st.cities.getD v5) t) := by
  have hDlt : ∀ ch ∈ D, ch ≠ '<' := fun ch h => (hD ch h).1
  have hDL : ∀ ch ∈ D, ch ≠ 'L' := fun ch h => (hD ch h).2.1
  rw [applyStat1 st.regions H D v1 v2 v3 v4 v5 q h1 hDlt]
  rw [applyStat2 st.subregions H D _ v2 v3 v4 v5 q h2 hDlt]
  rw [applyStat3 st.countries H D _ _ v3 v4 v5 q h3 hDlt]
  rw [applyStat4 st.states H D _ _ _ v4 v5 q h4 hDlt]
  rw [applyStat5 st.cities H D _ _ _ _ v5 q h5 hDlt]
  exact dateStep H D _ _ _ _ _ q t hdt hDL hq hqne

theorem updateOverview_noStats (st : StatRecord) (t doc : Chars)
    (h : anyPresent st = false) : updateOverview st t doc = doc := by
  rw [anyPresent] at h
  simp only [Bool.or_eq_false_iff] at h
  obtain ⟨⟨⟨⟨e1, e2⟩, e3⟩, e4⟩, e5⟩ := h
  have f1 := isSome_false_eq_none e1
  have f2 := isSome_false_eq_none e2
  have f3 := isSome_false_eq_none e3
  have f4 := isSome_false_eq_none e4
  have f5 := isSome_false_eq_none e5
  simp [updateOverview, applyStat, anyPresent, f1, f2, f3, f4, f5]

theorem updateOverview_std (st : StatRecord) (a b c v1 v2 v3 v4 v5 : Nat)
    (D q t : Chars) (hD : FreeText D) (hq : FreeText q) (hqne : q ≠ []) :
    updateOverview st t (stdDoc a b c D v1 v2 v3 v4 v5 q) =
      stdResult st a b c v1 v2 v3 v4 v5 D q t := by
  by_cases hA : anyPresent st = true
  · have hcore := coreSteps st v1 v2 v3 v4 v5 q t (stdDescLine a b c) D
      (noStart_div_descLine blueC a b c) (noStart_div_descLine greenC a b c)
      (noStart_div_descLine purpleC a b c) (noStart_div_descLine orangeC a b c)
      (noStart_div_descLine redC a b c) (noStart_date_descLine a b c)
      hD (fun ch h => (hq ch h).1) hqne
    simp only [updateOverview]
    rw [if_pos hA, stdDoc]
    simp only [blueC, greenC, purpleC, orangeC, redC] at hcore
    rcases hc : st.countries with _ | c3 <;> rcases hs : st.states with _ | s4 <;>
      rcases hci : st.cities with _ | ci5 <;>
      rw [hc, hs, hci] at hcore <;>
      simp only [] <;>
      rw [hcore]
    case pos.some.some.some =>
      rw [replFirst_match (descMatcher_at_line a b c _)]
      simp [stdResult, if_pos hA, hc, hs, hci, stdDoc2]
    all_goals simp [stdResult, if_pos hA, hc, hs, hci, stdDoc]
  · have hA' : anyPresent st = false := Bool.eq_false_iff.mpr hA
    rw [updateOverview_noStats st t _ hA', stdResult, if_neg hA]

theorem noMatch_desc_repl (c3 s4 ci5 : Nat) (D : Chars) (w1 w2 w3 w4 w5 : Nat)
    (t : Chars) (hD : FreeText D) (ht : FreeText t) :
    NoMatch descMatcher (descRepl c3 s4 ci5 ++ (D ++ divsSeg w1 w2 w3 w4 w5 t)) := by
  have hsplit : descRepl c3 s4 ci5 ++ (D ++ divsSeg w1 w2 w3 w4 w5 t) =
      'd' :: ("escription: \"Complete geographical database with ".toList ++
        (natChars (c3 / 50 * 50) ++ (descMid1 ++ (natChars (s4 / 500 * 500 / 1000) ++
          (descReplMid2 ++ (natChars (ci5 / 1000 * 1000 / 1000) ++ (descReplMid3 ++
            (D ++ divsSeg w1 w2 w3 w4 w5 t)))))))) := by
    rw [descRepl, descPre_cons]
    simp [List.append_assoc]
  rw [hsplit]
  refine noMatch_cons ?_ ?_
  · rw [← hsplit]
    exact descMatcher_none_at_repl c3 s4 ci5 _
  · refine noMatch_append (noStart_desc_refutes _ (by decide)) ?_
    refine noMatch_append (noStart_desc_natChars _) ?_
    refine noMatch_append (noStart_desc_refutes _ (by decide)) ?_
    refine noMatch_append (noStart_desc_natChars _) ?_
    refine noMatch_append (noStart_desc_refutes _ (by decide)) ?_
    refine noMatch_append (noStart_desc_natChars _) ?_
    refine noMatch_append (noStart_desc_refutes _ (by decide)) ?_
    refine noMatch_append (noStart_desc_free D (fun ch h => (hD ch h).2.2)) ?_
    rw [divsSeg]
    refine noMatch_append (noStart_desc_stdDiv blueC w1 (by decide)) ?_
    refine noMatch_append (noStart_desc_stdDiv greenC w2 (by decide)) ?_
    refine noMatch_append (noStart_desc_stdDiv purpleC w3 (by decide)) ?_
    refine noMatch_append (noStart_desc_stdDiv orangeC w4 (by decide)) ?_
    refine noMatch_append (noStart_desc_stdDiv redC w5 (by decide)) ?_
    rw [dateSeg]
    refine noMatch_append (noStart_desc_refutes datePre (by decide)) ?_
    refine noMatch_append (noStart_desc_free t (fun ch h => (ht ch h).2.2)) ?_
    exact noMatch_of_upto (by decide)

theorem updateOverview_std2 (st : StatRecord) (c3 s4 ci5 v1 v2 v3 v4 v5 : Nat)
    (D t : Chars) (hD : FreeText D) (ht : FreeText t) (htne : t ≠ [])
    (hc : st.countries = some c3) (hs : st.states = some s4)
    (hci : st.cities = some ci5) :
    updateOverview st t (stdDoc2 c3 s4 ci5 D v1 v2 v3 v4 v5 t) =
      stdDoc2 c3 s4 ci5 D (st.regions.getD v1) (st.subregions.getD v2) c3 s4 ci5 t := by
  have hA : anyPresent st = true := by
    rw [anyPresent, hc]
    simp
  have hcore := coreSteps st v1 v2 v3 v4 v5 t t (descRepl c3 s4 ci5) D
    (noStart_div_descRepl blueC c3 s4 ci5) (noStart_div_descRepl greenC c3 s4 ci5)
    (noStart_div_descRepl purpleC c3 s4 ci5) (noStart_div_descRepl orangeC c3 s4 ci5)
    (noStart_div_descRepl redC c3 s4 ci5) (noStart_date_descRepl c3 s4 ci5)
    hD (fun ch h => (ht ch h).1) htne
  simp only [blueC, greenC, purpleC, orangeC, redC] at hcore
  rw [hc, hs, hci] at hcore
  simp only [updateOverview]
  rw [if_pos hA, hc, hs, hci]
  simp only []
  rw [stdDoc2, hcore]
  rw [replFirst_of_noMatch (noMatch_desc_repl c3 s4 ci5 D _ _ _ _ _ t hD ht)]
  simp [stdDoc2, Option.getD_some]

theorem getD_getD {α : Type} (o : Option α) (v : α) : o.getD (o.getD v) = o.getD v := by
  rcases o <;> rfl

/-- C2 (amended): the overview rewrite is idempotent on standard-shape
overview documents — a frontmatter description line, anchor-free filler, the
five statistic anchors and a `Last Updated` anchor whose free texts contain
no anchor-opening character. For every StatRecord and current date text of
that form, applying the rewrite twice equals applying it once. Unrestricted
idempotence over all documents fails (see the counterexample). -/
theorem claim2_idempotent (st : StatRecord) (a b c v1 v2 v3 v4 v5 : Nat)
    (D q t : Chars) (hD : FreeText D) (hq : FreeText q) (hqne : q ≠ [])
    (ht : FreeText t) (htne : t ≠ []) :
    updateOverview st t (updateOverview st t (stdDoc a b c D v1 v2 v3 v4 v5 q)) =
      updateOverview st t (stdDoc a b c D v1 v2 v3 v4 v5 q) := by
  rw [updateOverview_std st a b c v1 v2 v3 v4 v5 D q t hD hq hqne]
  by_cases hA : anyPresent st = true
  · rcases hc : st.countries with _ | c3 <;> rcases hs : st.states with _ | s4 <;>
      rcases hci : st.cities with _ | ci5
    case pos.some.some.some =>
      have e : stdResult st a b c v1 v2 v3 v4 v5 D q t =
          stdDoc2 c3 s4 ci5 D (st.regions.getD v1) (st.subregions.getD v2)
            c3 s4 ci5 t := by
        simp [stdResult, hA, hc, hs, hci]
      rw [e, updateOverview_std2 st c3 s4 ci5 _ _ _ _ _ D t hD ht htne hc hs hci]
      simp [getD_getD]
    all_goals
      have e : stdResult st a b c v1 v2 v3 v4 v5 D q t =
          stdDoc a b c D (st.regions.getD v1) (st.subregions.getD v2)
            (st.countries.getD v3) (st.states.getD v4) (st.cities.getD v5) t := by
        simp [stdResult, hA, hc, hs, hci]
    all_goals rw [e, updateOverview_std st a b c _ _ _ _ _ D t t hD ht htne]
    all_goals simp [stdResult, hA, hc, hs, hci, getD_getD]
  · have hA' : anyPresent st = false := Bool.eq_false_iff.mpr hA
    rw [stdResult, if_neg hA]
    exact updateOverview_noStats st t _ hA'

theorem claim2_idempotent_witness :
    FreeText ("\n".toList) ∧ FreeText ("January 1, 2025".toList) ∧
    ("January 1, 2025".toList : Chars) ≠ [] ∧
    FreeText ("11th October 2025".toList) ∧
    ("11th October 2025".toList : Chars) ≠ [] ∧
    updateOverview ⟨some 6, some 22, some 250, some 5038, some 151024⟩
        ("11th October 2025".toList)
        (updateOverview ⟨some 6, some 22, some 250, some 5038, some 151024⟩
          ("11th October 2025".toList)
          (stdDoc 250 5 151 ("\n".toList) 1 2 3 4 5 ("January 1, 2025".toList))) =
      updateOverview ⟨some 6, some 22, some 250, some 5038, some 151024⟩
        ("11th October 2025".toList)
        (stdDoc 250 5 151 ("\n".toList) 1 2 3 4 5 ("January 1, 2025".toList)) :=
  ⟨by decide, by decide, by decide, by decide, by decide,
    claim2_idempotent ⟨some 6, some 22, some 250, some 5038, some 151024⟩ 250 5 151
      1 2 3 4 5 ("\n".toList) ("January 1, 2025".toList) ("11th October 2025".toList)
      (by decide) (by decide) (by decide) (by decide) (by decide)⟩

theorem claim8_partition_witness :
    (itemsOf exBody).count ("Fixed null pointer bug".toList) =
      (parseReleaseBody (some exBody)).features.count ("Fixed null pointer bug".toList) +
      (parseReleaseBody (some exBody)).improvements.count ("Fixed null pointer bug".toList) +
      (parseReleaseBody (some exBody)).fixes.count ("Fixed null pointer bug".toList) :=
  (claim8_partition exBody).2.1 ("Fixed null pointer bug".toList) (by decide)

end CscDocs
